import Mathlib

set_option autoImplicit false
set_option maxRecDepth 10000

/-!
Shallow embedding of contrib/amcheck/verify_nbtree.c (B-Tree index integrity
verification).  Pages are modelled as parsed records addressed by block
number; the key comparison routine `_bt_compare`, which lives in the nbtree
core rather than in this module, is injected as an abstract three-way
comparison oracle, exactly as the specification describes it.  Errors raised
with `ereport(ERROR, ...)` are modelled as `Except` values carrying the
structured detail (block numbers, offsets) of the corresponding report.
-/

deriving instance DecidableEq for Except

namespace VerifyNbtree

/-- Sentinel block number P_NONE (also used as the absent-sibling marker). -/
def P_NONE : Nat := 0

/-- Reserved block number of the metadata page (BTREE_METAPAGE). -/
def BTREE_METAPAGE : Nat := 0

/-- Offset number of a page's high key item (P_HIKEY). -/
def P_HIKEY : Nat := 1

/-- Offset number of the first data item on a page that has a high key (P_FIRSTKEY). -/
def P_FIRSTKEY : Nat := 2

/-- Page size in bytes (BLCKSZ). -/
def BLCKSZ : Nat := 8192

/-- Size in bytes of the btree special area at the end of every page (sizeof(BTPageOpaqueData)). -/
def BTPageOpaqueSize : Nat := 16

/-- Maximum number of index tuples one page can address (MaxIndexTuplesPerPage for 8KB pages). -/
def MaxIndexTuplesPerPage : Nat := 408

/-- Magic number stored in the metadata page (BTREE_MAGIC). -/
def BTREE_MAGIC : Nat := 0x053162

/-- Current btree on-disk version (BTREE_VERSION). -/
def BTREE_VERSION : Nat := 4

/-- Oldest supported btree on-disk version (BTREE_MIN_VERSION). -/
def BTREE_MIN_VERSION : Nat := 2

/-- Compression target for index datums, TOAST_INDEX_TARGET = MaxHeapTupleSize / 16. -/
def TOAST_INDEX_TARGET : Nat := 8160 / 16

/-- InvalidBlockNumber, the largest 32-bit value. -/
def InvalidBlockNumber : Nat := 4294967295

/-- InvalidBtreeLevel, numerically equal to InvalidBlockNumber. -/
def InvalidBtreeLevel : Nat := InvalidBlockNumber

/-- Maximum item size on a page when the reserved heap-TID space must be left
free (BTMaxItemSize for 8KB pages). -/
def BTMaxItemSize : Nat := 2704

/-- Maximum item size on a page when the reserved heap-TID space may be used
(BTMaxItemSizeNoHeapTid for 8KB pages). -/
def BTMaxItemSizeNoHeapTid : Nat := 2712

/-- Model of a varlena datum.  The payload is the logical (uncompressed)
byte content; the constructor records the storage representation. -/
inductive Varlena
  | external (payload : List Nat)
  | compressed (payload : List Nat)
  | plain4B (payload : List Nat)
  | short1B (payload : List Nat)
deriving DecidableEq

/-- Model of one attribute value inside an index tuple; `none` in the
surrounding option models a NULL. -/
inductive AttValue
  | fixedVal (v : Nat)
  | varVal (v : Varlena)
deriving DecidableEq

/-- Attribute storage kind (attstorage): p(lain), e(xternal), x (extended), m(ain). -/
inductive AttStorage
  | plain
  | ext
  | extended
  | main
deriving DecidableEq

/-- Per-attribute descriptor from the tuple descriptor (Form_pg_attribute). -/
structure AttDesc where
  attbyval : Bool
  attlen : Int
  attstorage : AttStorage
deriving DecidableEq

/-- Model of an IndexTuple.  Each field corresponds to one of the accessors
the C code applies to a tuple: BTreeTupleGetNAtts, BTreeTupleGetHeapTID,
BTreeInnerTupleGetDownLink, IndexTupleSize, IndexTupleHasVarwidths,
index_getattr (the atts list) and BTreeTupleGetTopParent. -/
structure IndexTuple where
  natts : Nat
  heapTid : Option (Nat × Nat)
  downlink : Nat
  size : Nat
  hasVarwidths : Bool
  atts : List (Option AttValue)
  topParent : Nat
deriving DecidableEq

/-- Line pointer state (lp_flags). -/
inductive LPFlag
  | unused
  | normal
  | redirect
  | dead
deriving DecidableEq

/-- Model of an ItemId (line pointer). -/
structure ItemId where
  lp_off : Nat
  lp_len : Nat
  lp_flags : LPFlag
deriving DecidableEq

/-- Model of one btree page: the BTPageOpaque special-area fields, the
metadata fields (meaningful only on the metapage) and the item array.
Offsets are 1-based, as in PostgreSQL: offset o addresses items[o-1]. -/
structure PageModel where
  btpo_prev : Nat
  btpo_next : Nat
  level : Nat
  isLeaf : Bool
  isRoot : Bool
  isDeleted : Bool
  isHalfDead : Bool
  isMeta : Bool
  isIncompleteSplit : Bool
  hasGarbage : Bool
  btm_magic : Nat
  btm_version : Nat
  items : List (ItemId × IndexTuple)
deriving DecidableEq

/-- P_RIGHTMOST: page has no right sibling. -/
def P_RIGHTMOST (p : PageModel) : Bool := p.btpo_next == P_NONE

/-- P_IGNORE: page is half-dead or fully deleted. -/
def P_IGNORE (p : PageModel) : Bool := p.isDeleted || p.isHalfDead

/-- P_FIRSTDATAKEY: first non-high-key offset of the page. -/
def P_FIRSTDATAKEY (p : PageModel) : Nat :=
  if P_RIGHTMOST p then P_HIKEY else P_FIRSTKEY

/-- PageGetMaxOffsetNumber. -/
def maxOff (p : PageModel) : Nat := p.items.length

/-- Placeholder line pointer used for out-of-range reads. -/
def defaultItemId : ItemId := ⟨0, 0, LPFlag.unused⟩

/-- Placeholder tuple used for out-of-range reads. -/
def defaultTuple : IndexTuple := ⟨0, none, 0, 0, false, [], 0⟩

/-- PageGetItemId: line pointer at a 1-based offset. -/
def itemIdAt (p : PageModel) (o : Nat) : ItemId :=
  (p.items.getD (o - 1) (defaultItemId, defaultTuple)).1

/-- PageGetItem: tuple at a 1-based offset. -/
def tupleAt (p : PageModel) (o : Nat) : IndexTuple :=
  (p.items.getD (o - 1) (defaultItemId, defaultTuple)).2

/-- Model of a BTScanInsert insertion scankey.  The origin field retains the
tuple the key was built from; the injected comparison oracle receives it. -/
structure BTScanInsert where
  heapkeyspace : Bool
  pivotsearch : Bool
  keysz : Nat
  scantid : Option (Nat × Nat)
  origin : IndexTuple
deriving DecidableEq

/-- Model of the index relation: attribute counts, the tuple descriptor, the
btree version flag, and the injected three-way comparison oracle standing in
for the nbtree-core routine _bt_compare. -/
structure RelModel where
  natts : Nat
  nkeyatts : Nat
  tupdesc : List AttDesc
  heapkeyspace : Bool
  compare : BTScanInsert → IndexTuple → Int

/-- BTreeTupleGetNKeyAtts: Min(IndexRelationGetNumberOfKeyAttributes, BTreeTupleGetNAtts). -/
def BTreeTupleGetNKeyAtts (rel : RelModel) (itup : IndexTuple) : Nat :=
  min rel.nkeyatts itup.natts

/-- Model of _bt_mkscankey (nbtree core): key size is the tuple's attribute
count capped by the key arity, and the scan TID is the tuple's heap TID for
heapkeyspace indexes. -/
def bt_mkscankey (rel : RelModel) (itup : IndexTuple) : BTScanInsert :=
  { heapkeyspace := rel.heapkeyspace
    pivotsearch := false
    keysz := min rel.nkeyatts itup.natts
    scantid := if rel.heapkeyspace then itup.heapTid else none
    origin := itup }

/-- bt_mkscankey_pivotsearch: _bt_mkscankey with the pivotsearch flag forced on. -/
def bt_mkscankey_pivotsearch (rel : RelModel) (itup : IndexTuple) : BTScanInsert :=
  { bt_mkscankey rel itup with pivotsearch := true }

/-- Reasons palloc_btree_page can reject a page. -/
inductive FetchError
  | invalidMetaFlag
  | metaCorrupt
  | versionMismatch
  | leafBadLevel
  | internalLevelZero
  | tooManyItems
  | internalMissingItems
  | leafMissingHighKey
  | internalHalfDead
  | internalGarbage
deriving DecidableEq

/-- Structured corruption reports raised by the verifier, one constructor per
distinct ereport site, carrying the blocks and offsets named in the report. -/
inductive CheckErr
  | fetchErr (block : Nat) (e : FetchError)
  | lineNotValid (block : Nat) (offset : Nat)
  | highKeyNatts (block : Nat)
  | lpLenMismatch (block : Nat) (offset : Nat)
  | wrongNatts (block : Nat) (offset : Nat)
  | rootDescendMissing (block : Nat) (offset : Nat)
  | sizeExceeded (block : Nat) (offset : Nat)
  | externalVarlena (tid : Option (Nat × Nat))
  | missingHeapTid (block : Nat)
  | highKeyInvariant (block : Nat) (offset : Nat)
  | itemOrderInvariant (block : Nat) (lower : Nat) (upper : Nat)
  | crossPageItemOrder (block : Nat) (offset : Nat)
  | downlinkToDeletedPage (parent : Nat) (child : Nat)
  | downlinkLowerBound (parent : Nat) (child : Nat) (offset : Nat)
  | leafLacksDownlink (block : Nat)
  | internalLacksDownlink (block : Nat)
  | downlinkWrongLevel (parent : Nat) (child : Nat)
  | downlinkToDeletedLeaf (parent : Nat) (leafblock : Nat)
  | deletedPageReachable (block : Nat)
  | fellOffEnd (block : Nat)
  | notLeftmost (block : Nat)
  | notTrueRoot (block : Nat)
  | sidelinksDisagree (block : Nat)
  | wrongPageLevel (block : Nat)
  | circularLink (block : Nat)
  | heapTupleMissing (tid : Nat × Nat)
  | fuelExhausted
deriving DecidableEq

/-- Model of BtreeCheckState.  The disk function is the page-fetch capability
(current on-disk bytes); target is the verifier's private copy of the page
being checked, which can go stale relative to disk in online mode.  The
rootdescendFound field injects the outcome of bt_rootdescend's _bt_search
based probe, which lives in the nbtree core. -/
structure BtreeCheckState where
  rel : RelModel
  heapkeyspace : Bool
  readonly : Bool
  heapallindexed : Bool
  rootdescend : Bool
  rootdescendFound : IndexTuple → Bool
  disk : Nat → PageModel
  target : PageModel
  targetblock : Nat
  filter : List IndexTuple
  downlinkfilter : List Nat
  rightsplit : Bool

/-- Modelled from the spec: the Bloom filter module (lib/bloomfilter.c is not
part of this module's source).  The spec requires add and
probabilistic-membership-absent queries with false negatives impossible by
construction; the model is an exact set, the ideal filter. -/
def bloom_add_element (fl : List IndexTuple) (x : IndexTuple) : List IndexTuple :=
  fl ++ [x]

/-- Modelled from the spec: membership-absent probe of the main filter. -/
def bloom_lacks_element (fl : List IndexTuple) (x : IndexTuple) : Bool :=
  decide (x ∉ fl)

/-- Modelled from the spec: add to the downlink (block number) filter. -/
def bloom_add_block (dfl : List Nat) (b : Nat) : List Nat :=
  dfl ++ [b]

/-- Modelled from the spec: membership-absent probe of the downlink filter. -/
def bloom_lacks_block (dfl : List Nat) (b : Nat) : Bool :=
  decide (b ∉ dfl)

/-- Baseline structural sanity checks of palloc_btree_page applied to the
copied page, in source order.  The metapage branch applies the
metadata-specific checks and returns early. -/
def pallocChecks (blocknum : Nat) (page : PageModel) : Except CheckErr PageModel :=
  if page.isMeta && !(blocknum == BTREE_METAPAGE) then
    .error (.fetchErr blocknum .invalidMetaFlag)
  else if blocknum == BTREE_METAPAGE then
    if !page.isMeta || !(page.btm_magic == BTREE_MAGIC) then
      .error (.fetchErr blocknum .metaCorrupt)
    else if page.btm_version < BTREE_MIN_VERSION || page.btm_version > BTREE_VERSION then
      .error (.fetchErr blocknum .versionMismatch)
    else .ok page
  else if page.isLeaf && !page.isDeleted && !(page.level == 0) then
    .error (.fetchErr blocknum .leafBadLevel)
  else if !page.isLeaf && !page.isDeleted && page.level == 0 then
    .error (.fetchErr blocknum .internalLevelZero)
  else if maxOff page > MaxIndexTuplesPerPage then
    .error (.fetchErr blocknum .tooManyItems)
  else if !page.isLeaf && !page.isDeleted && maxOff page < P_FIRSTDATAKEY page then
    .error (.fetchErr blocknum .internalMissingItems)
  else if page.isLeaf && !page.isDeleted && !(P_RIGHTMOST page) && maxOff page < P_HIKEY then
    .error (.fetchErr blocknum .leafMissingHighKey)
  else if !page.isLeaf && page.isHalfDead then
    .error (.fetchErr blocknum .internalHalfDead)
  else if !page.isLeaf && page.hasGarbage then
    .error (.fetchErr blocknum .internalGarbage)
  else .ok page

/-- palloc_btree_page: fetch a page copy and apply the baseline structural
sanity checks. -/
def palloc_btree_page (disk : Nat → PageModel) (blocknum : Nat) :
    Except CheckErr PageModel :=
  pallocChecks blocknum (disk blocknum)

/-- PageGetItemIdCareful: validate a line pointer before it is used.  The
block argument is the block the offset belongs to, used in the report. -/
def PageGetItemIdCareful (block : Nat) (page : PageModel) (offset : Nat) :
    Except CheckErr ItemId :=
  if (itemIdAt page offset).lp_off + (itemIdAt page offset).lp_len >
      BLCKSZ - BTPageOpaqueSize then
    .error (.lineNotValid block offset)
  else if (itemIdAt page offset).lp_flags == LPFlag.redirect ||
      (itemIdAt page offset).lp_flags == LPFlag.unused ||
      (itemIdAt page offset).lp_len == 0 then
    .error (.lineNotValid block offset)
  else .ok (itemIdAt page offset)

/-- offset_is_negative_infinity: first data item of an internal page. -/
def offset_is_negative_infinity (p : PageModel) (offset : Nat) : Bool :=
  !p.isLeaf && offset == P_FIRSTDATAKEY p

/-- BTreeTupleGetHeapTIDCareful: heap TID accessor that raises corruption
when a TID is mandatory (nonpivot tuple) but absent. -/
def BTreeTupleGetHeapTIDCareful (s : BtreeCheckState) (itup : IndexTuple)
    (nonpivot : Bool) : Except CheckErr (Option (Nat × Nat)) :=
  if itup.heapTid.isNone && nonpivot then .error (.missingHeapTid s.targetblock)
  else .ok itup.heapTid

/-- Injected _bt_compare oracle applied to the item at an offset of a page. -/
def bt_compare_model (s : BtreeCheckState) (key : BTScanInsert) (page : PageModel)
    (offset : Nat) : Int :=
  s.rel.compare key (tupleAt page offset)

/-- invariant_leq_offset: key less than or equal to the item at upperbound on
the target page. -/
def invariant_leq_offset (s : BtreeCheckState) (key : BTScanInsert)
    (upperbound : Nat) : Bool :=
  decide (bt_compare_model s key s.target upperbound ≤ 0)

/-- invariant_l_offset: key strictly less than the item at upperbound on the
target page, including the extra step simulating minus infinity values for
omitted scankey attributes when the comparison returns equality. -/
def invariant_l_offset (s : BtreeCheckState) (key : BTScanInsert)
    (upperbound : Nat) : Except CheckErr Bool :=
  match PageGetItemIdCareful s.targetblock s.target upperbound with
  | .error e => .error e
  | .ok _ =>
    if !key.heapkeyspace then .ok (invariant_leq_offset s key upperbound)
    else if bt_compare_model s key s.target upperbound == 0 then
      match BTreeTupleGetHeapTIDCareful s (tupleAt s.target upperbound)
          (s.target.isLeaf && decide (upperbound ≥ P_FIRSTDATAKEY s.target)) with
      | .error e => .error e
      | .ok rheaptid =>
        if key.keysz == BTreeTupleGetNKeyAtts s.rel (tupleAt s.target upperbound) then
          .ok (key.scantid.isNone && rheaptid.isSome)
        else .ok (decide (key.keysz < BTreeTupleGetNKeyAtts s.rel (tupleAt s.target upperbound)))
    else .ok (decide (bt_compare_model s key s.target upperbound < 0))

/-- invariant_g_offset: key strictly greater than the item at lowerbound on
the target page (greater-or-equal for pre-heapkeyspace indexes). -/
def invariant_g_offset (s : BtreeCheckState) (key : BTScanInsert)
    (lowerbound : Nat) : Bool :=
  let cmp := bt_compare_model s key s.target lowerbound
  if !key.heapkeyspace then decide (cmp ≥ 0) else decide (cmp > 0)

/-- invariant_l_nontarget_offset: like invariant_l_offset but against an item
of a caller-supplied non-target (child) page. -/
def invariant_l_nontarget_offset (s : BtreeCheckState) (key : BTScanInsert)
    (nontargetblock : Nat) (nontarget : PageModel) (upperbound : Nat) :
    Except CheckErr Bool :=
  match PageGetItemIdCareful nontargetblock nontarget upperbound with
  | .error e => .error e
  | .ok _ =>
    if !key.heapkeyspace then
      .ok (decide (s.rel.compare key (tupleAt nontarget upperbound) ≤ 0))
    else if s.rel.compare key (tupleAt nontarget upperbound) == 0 then
      match BTreeTupleGetHeapTIDCareful s (tupleAt nontarget upperbound)
          (nontarget.isLeaf && decide (upperbound ≥ P_FIRSTDATAKEY nontarget)) with
      | .error e => .error e
      | .ok childheaptid =>
        if key.keysz == BTreeTupleGetNKeyAtts s.rel (tupleAt nontarget upperbound) then
          .ok (key.scantid.isNone && childheaptid.isSome)
        else
          .ok (decide (key.keysz < BTreeTupleGetNKeyAtts s.rel (tupleAt nontarget upperbound)))
    else .ok (decide (s.rel.compare key (tupleAt nontarget upperbound) < 0))

/-- VARATT_IS_EXTERNAL. -/
def varIsExternal : Varlena → Bool
  | .external _ => true
  | _ => false

/-- VARATT_IS_COMPRESSED. -/
def varIsCompressed : Varlena → Bool
  | .compressed _ => true
  | _ => false

/-- VARSIZE as consulted in bt_normalize_tuple; only an uncompressed
four-byte-header datum reaches the size comparison. -/
def varSize : Varlena → Nat
  | .plain4B p => p.length + 4
  | _ => 0

/-- VARATT_CAN_MAKE_SHORT: a four-byte-header uncompressed datum whose
converted short size fits the one-byte header limit. -/
def varCanMakeShort : Varlena → Bool
  | .plain4B p => decide (p.length + 1 ≤ 127)
  | _ => false

/-- PG_DETOAST_DATUM applied to a compressed datum. -/
def detoast : Varlena → Varlena
  | .compressed p => .plain4B p
  | v => v

/-- SET_VARSIZE_SHORT conversion of a four-byte-header datum. -/
def makeShort : Varlena → Varlena
  | .plain4B p => .short1B p
  | v => v

/-- Storage kinds that allow compression (attstorage x or m). -/
def compressibleStorage : AttStorage → Bool
  | .extended => true
  | .main => true
  | _ => false

/-- Modelled from the spec: the datum transformation performed by
index_form_tuple (access/common/indextuple.c is not part of this module's
source).  Per the spec and the source's comments, it compresses an
uncompressed datum larger than the compression target when the attribute
storage allows it, and stores short-formable varlenas with one-byte headers. -/
def index_form_att (desc : AttDesc) (v : Option AttValue) : Option AttValue :=
  match v with
  | some (.varVal w) =>
    if desc.attbyval || !(desc.attlen == -1) then v
    else
      match w with
      | .external p => some (.varVal (.external p))
      | .compressed p => some (.varVal (.compressed p))
      | .plain4B p =>
        if p.length + 4 > TOAST_INDEX_TARGET && compressibleStorage desc.attstorage then
          some (.varVal (.compressed p))
        else if p.length + 1 ≤ 127 then some (.varVal (.short1B p))
        else some (.varVal (.plain4B p))
      | .short1B p => some (.varVal (.short1B p))
  | _ => v

/-- Model of the size of one attribute inside a formed index tuple. -/
def attValModelSize : Option AttValue → Nat
  | none => 0
  | some (.fixedVal _) => 8
  | some (.varVal (.external p)) => p.length + 18
  | some (.varVal (.compressed p)) => p.length + 8
  | some (.varVal (.plain4B p)) => p.length + 4
  | some (.varVal (.short1B p)) => p.length + 1

/-- Model of IndexTupleSize for a formed tuple: header plus attribute sizes. -/
def indexTupleModelSize (atts : List (Option AttValue)) : Nat :=
  8 + (atts.map attValModelSize).sum

/-- Whether a formed tuple has variable-width attributes. -/
def attsHaveVarwidths (atts : List (Option AttValue)) : Bool :=
  atts.any fun a =>
    match a with
    | some (.varVal _) => true
    | _ => false

/-- Modelled from the spec: index_form_tuple attribute processing applied to
a whole value list. -/
def index_form_tuple_atts (rel : RelModel) (values : List (Option AttValue)) :
    List (Option AttValue) :=
  (rel.tupdesc.zip values).map fun dv => index_form_att dv.1 dv.2

/-- Modelled from the spec: index_form_tuple for a heap row, with the tuple's
t_tid set to the row's TID afterwards (as bt_tuple_present_callback does). -/
def index_form_tuple (rel : RelModel) (values : List (Option AttValue))
    (tid : Nat × Nat) : IndexTuple :=
  let atts := index_form_tuple_atts rel values
  { natts := rel.tupdesc.length
    heapTid := some tid
    downlink := tid.1
    size := indexTupleModelSize atts
    hasVarwidths := attsHaveVarwidths atts
    atts := atts
    topParent := 0 }

/-- Reformed tuple built by bt_normalize_tuple's hard case: index_form_tuple
over the normalized datums, with the original tuple's t_tid copied over. -/
def reform_tuple (rel : RelModel) (values : List (Option AttValue))
    (itup : IndexTuple) : IndexTuple :=
  let atts := index_form_tuple_atts rel values
  { natts := rel.tupdesc.length
    heapTid := itup.heapTid
    downlink := itup.downlink
    size := indexTupleModelSize atts
    hasVarwidths := attsHaveVarwidths atts
    atts := atts
    topParent := itup.topParent }

/-- Per-attribute step of bt_normalize_tuple's loop: returns the (possibly
normalized) datum and whether this attribute forces forming a new tuple. -/
def normalizeOneAtt (tid : Option (Nat × Nat)) (att : AttDesc)
    (v : Option AttValue) : Except CheckErr (Option AttValue × Bool) :=
  if att.attbyval || !(att.attlen == -1) then .ok (v, false)
  else
    match v with
    | none => .ok (none, false)
    | some (.fixedVal n) => .ok (some (.fixedVal n), false)
    | some (.varVal w) =>
      if varIsExternal w then
        .error (.externalVarlena tid)
      else if !varIsCompressed w && varSize w > TOAST_INDEX_TARGET &&
          compressibleStorage att.attstorage then
        .ok (some (.varVal w), true)
      else if varIsCompressed w then
        .ok (some (.varVal (detoast w)), true)
      else if varCanMakeShort w then
        .ok (some (.varVal (makeShort w)), true)
      else .ok (some (.varVal w), false)

/-- bt_normalize_tuple's loop over the tuple descriptor paired with the
tuple's attribute values. -/
def normalizeAtts (tid : Option (Nat × Nat)) :
    List (AttDesc × Option AttValue) → Except CheckErr (List (Option AttValue) × Bool)
  | [] => .ok ([], false)
  | (att, v) :: rest =>
    match normalizeOneAtt tid att v with
    | .error e => .error e
    | .ok (nv, f) =>
      match normalizeAtts tid rest with
      | .error e => .error e
      | .ok (nrest, frest) => .ok (nv :: nrest, f || frest)

/-- bt_normalize_tuple: normalize an index tuple for fingerprinting.  Returns
the caller's tuple unchanged when nothing forces reforming it. -/
def bt_normalize_tuple (rel : RelModel) (itup : IndexTuple) :
    Except CheckErr IndexTuple :=
  if !itup.hasVarwidths then .ok itup
  else
    match normalizeAtts itup.heapTid (rel.tupdesc.zip itup.atts) with
    | .error e => .error e
    | .ok (normalized, formnewtup) =>
      if !formnewtup then .ok itup
      else .ok (reform_tuple rel normalized itup)

/-- Modelled from the spec: _bt_check_natts (nbtutils.c is not part of this
module's source).  Per the spec, the declared key-component count is checked
against the tree's arity given the page role: a negative-infinity item has
zero attributes, other boundary (pivot) tuples, including high keys, have at
most the key arity, and leaf entries have the full attribute count. -/
def bt_check_natts (rel : RelModel) (page : PageModel) (offset : Nat) : Bool :=
  if offset_is_negative_infinity page offset then (tupleAt page offset).natts == 0
  else if !(P_RIGHTMOST page) && offset == P_HIKEY then
    decide ((tupleAt page offset).natts ≤ rel.nkeyatts)
  else if page.isLeaf then (tupleAt page offset).natts == rel.natts
  else decide ((tupleAt page offset).natts ≤ rel.nkeyatts)

/-- Ascending list of n consecutive offsets starting at first. -/
def offsetRangeAux (first : Nat) : Nat → List Nat
  | 0 => []
  | n + 1 => first :: offsetRangeAux (first + 1) n

/-- List of offsets first..last, both 1-based and inclusive. -/
def offsetRange (first last : Nat) : List Nat :=
  offsetRangeAux first (last + 1 - first)

/-- Loop of bt_right_page_check_scankey that steps right over ignorable pages
until a non-ignorable or rightmost page is found, with explicit fuel for the
unbounded walk. -/
def rightPageLoop (disk : Nat → PageModel) : Nat → Nat → Except CheckErr (Nat × PageModel)
  | 0, _ => .error .fuelExhausted
  | fuel + 1, targetnext =>
    match palloc_btree_page disk targetnext with
    | .error e => .error e
    | .ok rightpage =>
      if !(P_IGNORE rightpage) || P_RIGHTMOST rightpage then .ok (targetnext, rightpage)
      else rightPageLoop disk fuel rightpage.btpo_next

/-- bt_right_page_check_scankey: scankey for the first comparable item of the
target's right sibling chain, or none when no such item exists. -/
def bt_right_page_check_scankey (fuel : Nat) (s : BtreeCheckState) :
    Except CheckErr (Option BTScanInsert) :=
  if P_RIGHTMOST s.target then .ok none
  else
    match rightPageLoop s.disk fuel s.target.btpo_next with
    | .error e => .error e
    | .ok (targetnext, rightpage) =>
      if rightpage.isLeaf && decide (maxOff rightpage ≥ P_FIRSTDATAKEY rightpage) then
        match PageGetItemIdCareful targetnext rightpage (P_FIRSTDATAKEY rightpage) with
        | .error e => .error e
        | .ok _ =>
          .ok (some (bt_mkscankey_pivotsearch s.rel
            (tupleAt rightpage (P_FIRSTDATAKEY rightpage))))
      else if !rightpage.isLeaf && decide (maxOff rightpage ≥ P_FIRSTDATAKEY rightpage + 1) then
        match PageGetItemIdCareful targetnext rightpage (P_FIRSTDATAKEY rightpage + 1) with
        | .error e => .error e
        | .ok _ =>
          .ok (some (bt_mkscankey_pivotsearch s.rel
            (tupleAt rightpage (P_FIRSTDATAKEY rightpage + 1))))
      else .ok none

/-- Last-item cross-page check (the body guarded by offset == max in
bt_target_page_check).  Returns true when the online-mode race was detected
and the check is to be abandoned by returning early from the whole page
check. -/
def check_last_item (fuel : Nat) (s : BtreeCheckState) (offset : Nat) :
    Except CheckErr Bool :=
  match bt_right_page_check_scankey fuel s with
  | .error e => .error e
  | .ok none => .ok false
  | .ok (some rightkey) =>
    if !(invariant_g_offset s rightkey offset) then
      if !s.readonly then
        match palloc_btree_page s.disk s.targetblock with
        | .error e => .error e
        | .ok newtarget =>
          if P_IGNORE newtarget then .ok true
          else .error (.crossPageItemOrder s.targetblock offset)
      else .error (.crossPageItemOrder s.targetblock offset)
    else .ok false

/-- Inner loop of bt_downlink_check over the child page's offsets. -/
def downlinkCheckLoop (s : BtreeCheckState) (targetkey : BTScanInsert)
    (childblock : Nat) (child : PageModel) :
    List Nat → Except CheckErr Unit
  | [] => .ok ()
  | o :: rest =>
    if offset_is_negative_infinity child o then
      downlinkCheckLoop s targetkey childblock child rest
    else
      match invariant_l_nontarget_offset s targetkey childblock child o with
      | .error e => .error e
      | .ok true => downlinkCheckLoop s targetkey childblock child rest
      | .ok false => .error (.downlinkLowerBound s.targetblock childblock o)

/-- bt_downlink_check: verify the target's downlink key is a strict lower
bound on every item of the child page, skipping the child's negative
infinity item. -/
def bt_downlink_check (s : BtreeCheckState) (targetkey : BTScanInsert)
    (childblock : Nat) : Except CheckErr Unit :=
  match palloc_btree_page s.disk childblock with
  | .error e => .error e
  | .ok child =>
    if child.isDeleted then .error (.downlinkToDeletedPage s.targetblock childblock)
    else downlinkCheckLoop s targetkey childblock child
      (offsetRange (P_FIRSTDATAKEY child) (maxOff child))

/-- Descent loop of bt_downlink_missing_check, following first-item downlinks
until a leaf page is reached, with explicit fuel. -/
def downlinkDescend (disk : Nat → PageModel) (tblock : Nat) :
    Nat → Nat → Nat → Except CheckErr (Nat × PageModel)
  | 0, _, _ => .error .fuelExhausted
  | fuel + 1, level, childblk =>
    match palloc_btree_page disk childblk with
    | .error e => .error e
    | .ok child =>
      if child.isLeaf then .ok (childblk, child)
      else if !(child.level == level - 1) then
        .error (.downlinkWrongLevel tblock childblk)
      else
        match PageGetItemIdCareful childblk child (P_FIRSTDATAKEY child) with
        | .error e => .error e
        | .ok _ =>
          downlinkDescend disk tblock fuel child.level
            (tupleAt child (P_FIRSTDATAKEY child)).downlink

/-- bt_downlink_missing_check: decide whether the lack of a downlink to the
target page is benign (interrupted split, or the top of an interrupted
multi-level deletion chain) or corruption. -/
def bt_downlink_missing_check (fuel : Nat) (s : BtreeCheckState)
    (dfl : List Nat) : Except CheckErr Unit :=
  if s.target.isRoot then .ok ()
  else if s.rightsplit then .ok ()
  else if !(bloom_lacks_block dfl s.targetblock) then .ok ()
  else if s.target.isLeaf then .error (.leafLacksDownlink s.targetblock)
  else
    match PageGetItemIdCareful s.targetblock s.target (P_FIRSTDATAKEY s.target) with
    | .error e => .error e
    | .ok _ =>
      match downlinkDescend s.disk s.targetblock fuel s.target.level
          (tupleAt s.target (P_FIRSTDATAKEY s.target)).downlink with
      | .error e => .error e
      | .ok (leafblk, leafpage) =>
        if leafpage.isDeleted then .error (.downlinkToDeletedLeaf s.targetblock leafblk)
        else if leafpage.isHalfDead && !(P_RIGHTMOST leafpage) then
          match PageGetItemIdCareful leafblk leafpage P_HIKEY with
          | .error e => .error e
          | .ok _ =>
            if (tupleAt leafpage P_HIKEY).topParent == s.targetblock then .ok ()
            else .error (.internalLacksDownlink s.targetblock)
        else .error (.internalLacksDownlink s.targetblock)

/-- Outcome of checking one item: continue to the next offset, or return
early from the whole page check (the online-mode deletion race). -/
inductive ItemStep
  | next (fl : List IndexTuple) (dfl : List Nat)
  | stop (fl : List IndexTuple) (dfl : List Nat)
deriving DecidableEq

/-- High key check stage of bt_target_page_check (leaf pages use
less-or-equal, internal pages strictly-less; rightmost pages have nothing to
check). -/
def highkeyStage (s : BtreeCheckState) (skey : BTScanInsert) :
    Except CheckErr Bool :=
  if !(P_RIGHTMOST s.target) then
    if s.target.isLeaf then .ok (invariant_leq_offset s skey P_HIKEY)
    else invariant_l_offset s skey P_HIKEY
  else .ok true

/-- Item order stage of bt_target_page_check: strictly-less against the next
item when one exists on this page, otherwise (last item) the cross-page
check. -/
def orderStage (fuel : Nat) (s : BtreeCheckState) (skey : BTScanInsert)
    (offset : Nat) : Except CheckErr Bool :=
  if offset + 1 ≤ maxOff s.target then
    match invariant_l_offset s skey (offset + 1) with
    | .error e => .error e
    | .ok b =>
      if !b then .error (.itemOrderInvariant s.targetblock offset (offset + 1))
      else .ok false
  else if offset == maxOff s.target then check_last_item fuel s offset
  else .ok false

/-- Fingerprinting stage of bt_target_page_check: normalize and add a live
leaf tuple to the main filter in heapallindexed runs. -/
def fingerprintStage (s : BtreeCheckState) (itemid : ItemId) (itup : IndexTuple)
    (fl : List IndexTuple) : Except CheckErr (List IndexTuple) :=
  if s.heapallindexed && s.target.isLeaf && !(itemid.lp_flags == LPFlag.dead) then
    match bt_normalize_tuple s.rel itup with
    | .error e => .error e
    | .ok n => .ok (bloom_add_element fl n)
  else .ok fl

/-- Downlink check stage of bt_target_page_check: child bound check for
internal pages under ShareLock. -/
def downlinkStage (s : BtreeCheckState) (skey : BTScanInsert)
    (itup : IndexTuple) : Except CheckErr Unit :=
  if !s.target.isLeaf && s.readonly then bt_downlink_check s skey itup.downlink
  else .ok ()

/-- Size ceiling applied to one item: the lower limit when the reserved
heap-TID space must stay free (heapkeyspace, and the tuple is a leaf tuple or
a pivot tuple without an explicit heap TID), the higher limit otherwise. -/
def itemSizeLimit (s : BtreeCheckState) (itup : IndexTuple) : Nat :=
  if (bt_mkscankey_pivotsearch s.rel itup).heapkeyspace &&
      (s.target.isLeaf || itup.heapTid.isNone) then
    BTMaxItemSize
  else BTMaxItemSizeNoHeapTid

/-- Downlink fingerprinting step of bt_target_page_check: add the entry's
child block to the downlink filter in heapallindexed readonly runs over
internal pages. -/
def downlinkFingerprint (s : BtreeCheckState) (dfl : List Nat)
    (itup : IndexTuple) : List Nat :=
  if s.heapallindexed && s.readonly && !s.target.isLeaf then
    bloom_add_block dfl itup.downlink
  else dfl

/-- Body of bt_target_page_check's per-item loop, in source order: line
pointer validation, lp_len match, attribute count, downlink fingerprinting,
negative-infinity skip, rootdescend probe, scankey construction, size limit,
leaf fingerprinting, high key check, item order or last-item check, downlink
check. -/
def checkOneItem (fuel : Nat) (s : BtreeCheckState) (fl : List IndexTuple)
    (dfl : List Nat) (offset : Nat) : Except CheckErr ItemStep :=
  match PageGetItemIdCareful s.targetblock s.target offset with
  | .error e => .error e
  | .ok itemid =>
    if !((tupleAt s.target offset).size == itemid.lp_len) then
      .error (.lpLenMismatch s.targetblock offset)
    else if !(bt_check_natts s.rel s.target offset) then
      .error (.wrongNatts s.targetblock offset)
    else if offset_is_negative_infinity s.target offset then
      .ok (.next fl (downlinkFingerprint s dfl (tupleAt s.target offset)))
    else if s.rootdescend && s.target.isLeaf &&
        !(s.rootdescendFound (tupleAt s.target offset)) then
      .error (.rootDescendMissing s.targetblock offset)
    else if (tupleAt s.target offset).size > itemSizeLimit s (tupleAt s.target offset) then
      .error (.sizeExceeded s.targetblock offset)
    else
      match fingerprintStage s itemid (tupleAt s.target offset) fl with
      | .error e => .error e
      | .ok fl2 =>
        match highkeyStage s (bt_mkscankey_pivotsearch s.rel (tupleAt s.target offset)) with
        | .error e => .error e
        | .ok hik =>
          if !hik then .error (.highKeyInvariant s.targetblock offset)
          else
            match orderStage fuel s
                (bt_mkscankey_pivotsearch s.rel (tupleAt s.target offset)) offset with
            | .error e => .error e
            | .ok earlystop =>
              if earlystop then
                .ok (.stop fl2 (downlinkFingerprint s dfl (tupleAt s.target offset)))
              else
                match downlinkStage s
                    (bt_mkscankey_pivotsearch s.rel (tupleAt s.target offset))
                    (tupleAt s.target offset) with
                | .error e => .error e
                | .ok _ =>
                  .ok (.next fl2 (downlinkFingerprint s dfl (tupleAt s.target offset)))

/-- Item loop of bt_target_page_check; the Bool result records whether the
loop ended through the online-race early return. -/
def checkItems (fuel : Nat) (s : BtreeCheckState) :
    List Nat → List IndexTuple → List Nat →
    Except CheckErr (List IndexTuple × List Nat × Bool)
  | [], fl, dfl => .ok (fl, dfl, false)
  | o :: rest, fl, dfl =>
    match checkOneItem fuel s fl dfl o with
    | .error e => .error e
    | .ok (.next fl2 dfl2) => checkItems fuel s rest fl2 dfl2
    | .ok (.stop fl2 dfl2) => .ok (fl2, dfl2, true)

/-- bt_target_page_check: the whole page validator.  Returns the updated
main and downlink filters.  The early return taken when the online deletion
race is detected skips both the remaining items and the
missing-downlink check (which is in any case restricted to readonly
callers). -/
def bt_target_page_check (fuel : Nat) (s : BtreeCheckState) :
    Except CheckErr (List IndexTuple × List Nat) :=
  match ((if !(P_RIGHTMOST s.target) then
          match PageGetItemIdCareful s.targetblock s.target P_HIKEY with
          | .error e => .error e
          | .ok _ =>
            if !(bt_check_natts s.rel s.target P_HIKEY) then
              .error (.highKeyNatts s.targetblock)
            else .ok ()
        else .ok ()) : Except CheckErr Unit) with
  | .error e => .error e
  | .ok _ =>
    match checkItems fuel s (offsetRange (P_FIRSTDATAKEY s.target) (maxOff s.target))
        s.filter s.downlinkfilter with
    | .error e => .error e
    | .ok (fl, dfl, stopped) =>
      if stopped then .ok (fl, dfl)
      else if s.heapallindexed && s.readonly then
        match bt_downlink_missing_check fuel s dfl with
        | .error e => .error e
        | .ok _ => .ok (fl, dfl)
      else .ok (fl, dfl)

/-- bt_tuple_present_callback: per-row heapallindexed probe.  The row's
equivalent index tuple is formed, normalized and probed against the main
filter; absence is the missing-index-entry corruption naming the row's TID. -/
def bt_tuple_present_callback (s : BtreeCheckState)
    (values : List (Option AttValue)) (tid : Nat × Nat) : Except CheckErr Unit :=
  match bt_normalize_tuple s.rel (index_form_tuple s.rel values tid) with
  | .error e => .error e
  | .ok norm =>
    if bloom_lacks_element s.filter norm then .error (.heapTupleMissing tid)
    else .ok ()

/-- Starting point record for verifying one tree level (BtreeLevel). -/
structure BtreeLevel where
  level : Nat
  leftmost : Nat
  istruerootlevel : Bool
deriving DecidableEq

/-- Mutable state of the level walk loop in bt_check_level_from_leftmost. -/
structure WalkState where
  leftcurrent : Nat
  current : Nat
  nld : BtreeLevel
  filter : List IndexTuple
  downlinkfilter : List Nat
  rightsplit : Bool
deriving DecidableEq

/-- Result of one iteration of the level walk: continue with the sibling, or
the level is complete. -/
inductive WalkStep
  | cont (w : WalkState)
  | done (w : WalkState)
deriving DecidableEq

/-- Loop of bt_leftmost_ignoring_half_dead, following btpo_prev through
half-dead pages, with explicit fuel. -/
def bt_leftmost_aux (disk : Nat → PageModel) (start : Nat) :
    Nat → Nat → Nat → Except CheckErr Bool
  | 0, _, _ => .error .fuelExhausted
  | fuel + 1, reached, reached_from =>
    if reached == P_NONE then .ok true
    else
      match palloc_btree_page disk reached with
      | .error e => .error e
      | .ok page =>
        if page.isHalfDead && !(reached == start) && !(reached == reached_from) &&
            page.btpo_next == reached_from then
          bt_leftmost_aux disk start fuel page.btpo_prev reached
        else .ok false

/-- bt_leftmost_ignoring_half_dead: P_LEFTMOST, but accepting a chain of
half-dead sibling-linked pages to the left. -/
def bt_leftmost_ignoring_half_dead (fuel : Nat) (disk : Nat → PageModel)
    (start : Nat) (startPage : PageModel) : Except CheckErr Bool :=
  bt_leftmost_aux disk start fuel startPage.btpo_prev start

/-- First non-ignorable page handling of the level walk: leftmost and
true-root verification under readonly, and recording of the leftmost child
pointer for the next level down. -/
def firstPageSetup (fuel : Nat) (base : BtreeCheckState) (level : BtreeLevel)
    (current : Nat) (page : PageModel) : Except CheckErr BtreeLevel :=
  match ((if base.readonly then
          match bt_leftmost_ignoring_half_dead fuel base.disk current page with
          | .error e => .error e
          | .ok b =>
            if !b then .error (.notLeftmost current)
            else if level.istruerootlevel && !page.isRoot then
              .error (.notTrueRoot current)
            else .ok ()
        else .ok ()) : Except CheckErr Unit) with
  | .error e => .error e
  | .ok _ =>
    if !page.isLeaf then
      match PageGetItemIdCareful current page (P_FIRSTDATAKEY page) with
      | .error e => .error e
      | .ok _ =>
        .ok { level := page.level - 1
              leftmost := (tupleAt page (P_FIRSTDATAKEY page)).downlink
              istruerootlevel := false }
    else
      .ok { level := InvalidBtreeLevel, leftmost := P_NONE, istruerootlevel := false }

/-- Tail of the level walk's loop body (the nextpage label): circular link
detection, incomplete-split recording, and the advance to the sibling. -/
def walkNextPage (w : WalkState) (page : PageModel) (fl : List IndexTuple)
    (dfl : List Nat) : Except CheckErr WalkStep :=
  if w.current == w.leftcurrent || w.current == page.btpo_prev then
    .error (.circularLink w.current)
  else
    let w2 : WalkState :=
      { w with leftcurrent := w.current
               current := page.btpo_next
               rightsplit := page.isIncompleteSplit
               filter := fl
               downlinkfilter := dfl }
    if page.btpo_next == P_NONE then .ok (.done w2) else .ok (.cont w2)

/-- One iteration of bt_check_level_from_leftmost's loop: fetch the current
page, handle ignorable pages, run the first-page setup, the sibling link and
level checks, validate the page and advance. -/
def levelIteration (fuel : Nat) (base : BtreeCheckState) (level : BtreeLevel)
    (w : WalkState) : Except CheckErr WalkStep :=
  match palloc_btree_page base.disk w.current with
  | .error e => .error e
  | .ok page =>
    if P_IGNORE page then
      if base.readonly && page.isDeleted then .error (.deletedPageReachable w.current)
      else if P_RIGHTMOST page then .error (.fellOffEnd w.current)
      else walkNextPage w page w.filter w.downlinkfilter
    else
      match ((if w.nld.leftmost == InvalidBlockNumber then
              firstPageSetup fuel base level w.current page
            else .ok w.nld) : Except CheckErr BtreeLevel) with
      | .error e => .error e
      | .ok nld =>
        if base.readonly && !(page.btpo_prev == w.leftcurrent) &&
            !(w.leftcurrent == P_NONE) then
          .error (.sidelinksDisagree w.current)
        else if !(level.level == page.level) then .error (.wrongPageLevel w.current)
        else
          let s := { base with
            target := page
            targetblock := w.current
            filter := w.filter
            downlinkfilter := w.downlinkfilter
            rightsplit := w.rightsplit }
          match bt_target_page_check fuel s with
          | .error e => .error e
          | .ok (fl, dfl) => walkNextPage { w with nld := nld } page fl dfl

/-- Whole-level loop: iterate until the right end of the level, with fuel. -/
def levelLoop (base : BtreeCheckState) (level : BtreeLevel) :
    Nat → WalkState → Except CheckErr WalkState
  | 0, _ => .error .fuelExhausted
  | fuel + 1, w =>
    match levelIteration (fuel + 1) base level w with
    | .error e => .error e
    | .ok (.done w2) => .ok w2
    | .ok (.cont w2) => levelLoop base level fuel w2

/-- bt_check_level_from_leftmost: walk a level left to right from its
leftmost block and return the walk's final state (including the next level
down descriptor). -/
def bt_check_level_from_leftmost (fuel : Nat) (base : BtreeCheckState)
    (level : BtreeLevel) : Except CheckErr WalkState :=
  levelLoop base level fuel
    { leftcurrent := P_NONE
      current := level.leftmost
      nld := { level := InvalidBtreeLevel, leftmost := InvalidBlockNumber,
               istruerootlevel := false }
      filter := base.filter
      downlinkfilter := base.downlinkfilter
      rightsplit := base.rightsplit }

/-! Specification-side predicates, stated from the spec's words, used to
compare claims against the source-derived definitions above. -/

/-- Spec-side statement of claim C3's strictlyLess: true iff compare is
negative, or compare is zero and either the offset's entry is a boundary
tuple with fewer key components than the key, or the entry is a full-arity
entry carrying a trailing heap TID that the key lacks. -/
def claimC3StrictlyLess (s : BtreeCheckState) (key : BTScanInsert)
    (upperbound : Nat) : Bool :=
  let cmp := bt_compare_model s key s.target upperbound
  let ritup := tupleAt s.target upperbound
  let isBoundary := !s.target.isLeaf || (!(P_RIGHTMOST s.target) && upperbound == P_HIKEY)
  decide (cmp < 0) ||
    (cmp == 0 &&
      ((isBoundary && decide (BTreeTupleGetNKeyAtts s.rel ritup < key.keysz)) ||
       (BTreeTupleGetNKeyAtts s.rel ritup == s.rel.nkeyatts &&
         ritup.heapTid.isSome && key.scantid.isNone)))

/-- Spec-side statement of claim C7's failure condition for a fetched page:
the disjunction of the eight structural-sanity conditions the claim lists. -/
def claimC7FailCond (blocknum : Nat) (page : PageModel) : Bool :=
  (page.isMeta && !(blocknum == BTREE_METAPAGE)) ||
  (page.isLeaf && !page.isDeleted && !(page.level == 0)) ||
  (!page.isLeaf && !page.isDeleted && page.level == 0) ||
  decide (maxOff page > MaxIndexTuplesPerPage) ||
  (!page.isLeaf && !page.isDeleted && decide (maxOff page < P_FIRSTDATAKEY page)) ||
  (page.isLeaf && !page.isDeleted && !(P_RIGHTMOST page) &&
    decide (maxOff page < P_HIKEY)) ||
  (!page.isLeaf && page.isHalfDead) ||
  (!page.isLeaf && page.hasGarbage)

/-- Spec-side statement of claim C9's notion of an already-normalized entry:
no compressed components and no four-byte-header varlena that could be made
short form (among the non-null varlena-typed attributes). -/
def claimC9Normalized (rel : RelModel) (itup : IndexTuple) : Bool :=
  (rel.tupdesc.zip itup.atts).all fun p =>
    if p.1.attbyval || !(p.1.attlen == -1) then true
    else
      match p.2 with
      | some (.varVal w) => !varIsCompressed w && !varCanMakeShort w
      | _ => true

/-- One attribute of a fully normalized entry: either not a varlena-typed
attribute at all, or a varlena that no branch of bt_normalize_tuple's loop
would touch (not external, not compressed, not short-formable, and not an
uncompressed datum above the compression target with compressible storage). -/
def attNormalized (p : AttDesc × Option AttValue) : Bool :=
  if p.1.attbyval || !(p.1.attlen == -1) then true
  else
    match p.2 with
    | some (.varVal w) =>
      !varIsExternal w && !varIsCompressed w && !varCanMakeShort w &&
        !(decide (varSize w > TOAST_INDEX_TARGET) && compressibleStorage p.1.attstorage)
    | _ => true

/-- Fully normalized entry, the amended form of claim C9's precondition: in
addition to claim C9's conditions, no external component and no uncompressed
component larger than the compression target with compressible storage. -/
def fullyNormalized (rel : RelModel) (itup : IndexTuple) : Bool :=
  (rel.tupdesc.zip itup.atts).all attNormalized

/-- Spec-side description of what the fingerprinting stage adds to the main
filter at one offset: the normalized tuple, for live leaf entries of
heapallindexed runs, and nothing otherwise. -/
def fingerprintAddsSpec (s : BtreeCheckState) (o : Nat) : List IndexTuple :=
  if s.heapallindexed && s.target.isLeaf &&
      !((itemIdAt s.target o).lp_flags == LPFlag.dead) then
    match bt_normalize_tuple s.rel (tupleAt s.target o) with
    | .ok n => [n]
    | .error _ => []
  else []

/-! Concrete model instances used by witnesses and counterexamples. -/

/-- First (fixed-width) key attribute of a tuple, 0 when absent. -/
def attKeyVal (t : IndexTuple) : Nat :=
  match t.atts.getD 0 none with
  | some (.fixedVal n) => n
  | _ => 0

/-- Concrete comparison oracle: three-way comparison of first key attributes. -/
def exCompare (k : BTScanInsert) (t : IndexTuple) : Int :=
  if attKeyVal k.origin < attKeyVal t then -1
  else if attKeyVal k.origin == attKeyVal t then 0
  else 1

/-- Concrete one-attribute relation. -/
def exRel : RelModel :=
  { natts := 1, nkeyatts := 1, tupdesc := [⟨true, 4, .plain⟩],
    heapkeyspace := true, compare := exCompare }

/-- Concrete two-attribute relation. -/
def exRel2 : RelModel :=
  { natts := 2, nkeyatts := 2, tupdesc := [⟨true, 4, .plain⟩, ⟨true, 4, .plain⟩],
    heapkeyspace := true, compare := exCompare }

/-- Concrete live line pointer for 16-byte tuples. -/
def liveIid : ItemId := ⟨64, 16, .normal⟩

/-- Concrete dead line pointer for 16-byte tuples. -/
def deadIid : ItemId := ⟨64, 16, .dead⟩

/-- Concrete leaf (non-pivot) entry with the given first key value and TID. -/
def mkEntry (v : Nat) (tid : Nat × Nat) : IndexTuple :=
  { natts := 1, heapTid := some tid, downlink := tid.1, size := 16,
    hasVarwidths := false, atts := [some (.fixedVal v)], topParent := 0 }

/-- Concrete pivot tuple with the given first key value and downlink. -/
def mkPivot (v : Nat) (dl : Nat) : IndexTuple :=
  { natts := 1, heapTid := none, downlink := dl, size := 16,
    hasVarwidths := false, atts := [some (.fixedVal v)], topParent := 0 }

/-- Concrete negative-infinity item with the given downlink. -/
def mkNegInf (dl : Nat) : IndexTuple :=
  { natts := 0, heapTid := none, downlink := dl, size := 16,
    hasVarwidths := false, atts := [], topParent := 0 }

/-- Concrete leaf page. -/
def mkLeafPage (prev next : Nat) (items : List (ItemId × IndexTuple)) : PageModel :=
  { btpo_prev := prev, btpo_next := next, level := 0, isLeaf := true,
    isRoot := false, isDeleted := false, isHalfDead := false, isMeta := false,
    isIncompleteSplit := false, hasGarbage := false, btm_magic := 0,
    btm_version := 0, items := items }

/-- Concrete internal page at the given level. -/
def mkInternalPage (prev next level : Nat) (items : List (ItemId × IndexTuple)) :
    PageModel :=
  { btpo_prev := prev, btpo_next := next, level := level, isLeaf := false,
    isRoot := false, isDeleted := false, isHalfDead := false, isMeta := false,
    isIncompleteSplit := false, hasGarbage := false, btm_magic := 0,
    btm_version := 0, items := items }

/-- Concrete fully deleted leaf page (ignorable). -/
def deletedLeafPage : PageModel :=
  { mkLeafPage 0 0 [] with isDeleted := true }

/-- Concrete base state skeleton over exRel. -/
def baseState : BtreeCheckState :=
  { rel := exRel, heapkeyspace := true, readonly := false,
    heapallindexed := false, rootdescend := false,
    rootdescendFound := fun _ => true, disk := fun _ => deletedLeafPage,
    target := mkLeafPage 0 0 [], targetblock := 4, filter := [],
    downlinkfilter := [], rightsplit := false }

/-- Right sibling page used by exState1: rightmost leaf holding key 12. -/
def exRight1 : PageModel := mkLeafPage 4 0 [(liveIid, mkEntry 12 (2, 1))]

/-- Target page of exState1: non-rightmost leaf, high key 10, entries 5 and 8. -/
def exTarget1 : PageModel :=
  mkLeafPage 0 7
    [(liveIid, mkPivot 10 0), (liveIid, mkEntry 5 (1, 1)), (liveIid, mkEntry 8 (1, 2))]

/-- Concrete state for the high-key and item-order witnesses. -/
def exState1 : BtreeCheckState :=
  { baseState with
    disk := fun b => if b == 7 then exRight1 else deletedLeafPage
    target := exTarget1 }

/-- Internal rightmost target page holding a single truncated pivot of key 7. -/
def exTarget3 : PageModel := mkInternalPage 0 0 1 [(liveIid, mkPivot 7 2)]

/-- Concrete state for the claim C3 counterexample. -/
def exState3 : BtreeCheckState :=
  { baseState with rel := exRel2, target := exTarget3, targetblock := 9 }

/-- Tuple of full arity 2 whose first attribute ties with exTarget3's pivot. -/
def exKeyTup3 : IndexTuple :=
  { natts := 2, heapTid := none, downlink := 0, size := 24, hasVarwidths := false,
    atts := [some (.fixedVal 7), some (.fixedVal 9)], topParent := 0 }

/-- Scankey for the claim C3 counterexample. -/
def exKey3 : BTScanInsert := bt_mkscankey_pivotsearch exRel2 exKeyTup3

/-- Scankey whose first attribute lies strictly below exTarget3's pivot. -/
def exKey3b : BTScanInsert :=
  bt_mkscankey_pivotsearch exRel2
    { natts := 2, heapTid := none, downlink := 0, size := 24, hasVarwidths := false,
      atts := [some (.fixedVal 5), some (.fixedVal 9)], topParent := 0 }

/-- Child page obeying the downlink bound of exState4 (key 12 above pivot 10). -/
def exChildGood : PageModel := mkLeafPage 0 0 [(liveIid, mkEntry 12 (5, 1))]

/-- Child page violating the downlink bound (key 2 below pivot 10). -/
def exChildBad : PageModel := mkLeafPage 0 0 [(liveIid, mkEntry 2 (5, 1))]

/-- Internal rightmost target page: negative infinity item then pivot 10 to
child block 3. -/
def exTarget4 : PageModel :=
  mkInternalPage 0 0 1 [(liveIid, mkNegInf 2), (liveIid, mkPivot 10 3)]

/-- Concrete readonly state exercising the downlink check. -/
def exState4 : BtreeCheckState :=
  { baseState with
    readonly := true
    disk := fun b => if b == 3 then exChildGood else deletedLeafPage
    target := exTarget4 }

/-- Concrete online-mode state whose child violates the downlink bound. -/
def exState4on : BtreeCheckState :=
  { baseState with
    readonly := false
    disk := fun b => if b == 3 then exChildBad else deletedLeafPage
    target := exTarget4 }

/-- Right sibling for the cross-page race example: rightmost leaf with key 3,
less than the target's last item 5. -/
def exRight5 : PageModel := mkLeafPage 4 0 [(liveIid, mkEntry 3 (2, 1))]

/-- Target copy for the cross-page race example: non-rightmost leaf with
high key 10 and last item 5. -/
def exTarget5 : PageModel :=
  mkLeafPage 0 7 [(liveIid, mkPivot 10 0), (liveIid, mkEntry 5 (1, 1))]

/-- Concrete online state for claim C5: the disk's copy of the target block
has become ignorable while the verifier's private copy has not. -/
def exOnline5 : BtreeCheckState :=
  { baseState with
    readonly := false
    disk := fun b => if b == 7 then exRight5 else deletedLeafPage
    target := exTarget5 }

/-- Readonly twin of exOnline5 over the same page bytes. -/
def exReadonly5 : BtreeCheckState := { exOnline5 with readonly := true }

/-- Target page for the fingerprinting examples: rightmost leaf with a live
entry 5 and a dead entry 8. -/
def exTarget6 : PageModel :=
  mkLeafPage 0 0 [(liveIid, mkEntry 5 (1, 1)), (deadIid, mkEntry 8 (1, 2))]

/-- Concrete heapallindexed state for the fingerprinting examples. -/
def exState6 : BtreeCheckState :=
  { baseState with heapallindexed := true, target := exTarget6 }

/-- Concrete state holding the fingerprint of entry 5, for callback probes. -/
def exDrain6 : BtreeCheckState := { exState6 with filter := [mkEntry 5 (1, 1)] }

/-- Dead entry violating the high-key bound (claim C10's checks-still-apply). -/
def exDeadHik : BtreeCheckState :=
  { baseState with
    heapallindexed := true
    target := mkLeafPage 0 7 [(liveIid, mkPivot 10 0), (deadIid, mkEntry 20 (1, 5))] }

/-- Dead entry exceeding the size limit (claim C10's checks-still-apply). -/
def exDeadSize : BtreeCheckState :=
  { baseState with
    heapallindexed := true
    target := mkLeafPage 0 0
      [(⟨64, 5000, .dead⟩, { mkEntry 7 (1, 1) with size := 5000 })] }

/-- Dead entry out of order (claim C10's checks-still-apply). -/
def exDeadOrder : BtreeCheckState :=
  { baseState with
    heapallindexed := true
    target := mkLeafPage 0 0 [(deadIid, mkEntry 9 (1, 1)), (liveIid, mkEntry 7 (1, 2))] }

/-- Half-dead non-rightmost leaf page used by the level walk example. -/
def exHalfDead8 : PageModel :=
  { mkLeafPage 3 6 [(liveIid, mkPivot 10 0)] with isHalfDead := true }

/-- Base state for the level walk example. -/
def exBase8 : BtreeCheckState :=
  { baseState with disk := fun b => if b == 5 then exHalfDead8 else deletedLeafPage }

/-- Walk state positioned at the half-dead page of exBase8. -/
def exWalk8 : WalkState :=
  { leftcurrent := 2, current := 5,
    nld := { level := 0, leftmost := 99, istruerootlevel := false },
    filter := [], downlinkfilter := [], rightsplit := false }

/-- Plain empty rightmost leaf page (structurally sound away from block 0). -/
def pgPlainLeaf : PageModel := mkLeafPage 0 0 []

/-- Leaf page with a corrupt level field. -/
def pgBadLevel : PageModel := { mkLeafPage 0 0 [] with level := 5 }

/-- Single-varlena relation for the normalization examples. -/
def relVar : RelModel :=
  { natts := 1, nkeyatts := 1, tupdesc := [⟨false, -1, .extended⟩],
    heapkeyspace := true, compare := exCompare }

/-- Uncompressed varlena payload larger than the compression target. -/
def bigPayload : List Nat := List.replicate 600 7

/-- Leaf entry holding one uncompressed four-byte-header varlena larger than
the compression target, not short-formable: claim C9's counterexample input. -/
def itupBig : IndexTuple :=
  { natts := 1, heapTid := some (1, 1), downlink := 1, size := 620,
    hasVarwidths := true, atts := [some (.varVal (.plain4B bigPayload))],
    topParent := 0 }

/-- Leaf entry holding one short-form varlena: already fully normalized. -/
def itupShortNorm : IndexTuple :=
  { natts := 1, heapTid := some (1, 1), downlink := 1, size := 12,
    hasVarwidths := true, atts := [some (.varVal (.short1B [1, 2, 3]))],
    topParent := 0 }

/-- Main filter carried by an item step. -/
def ItemStep.mainFilter : ItemStep → List IndexTuple
  | .next fl _ => fl
  | .stop fl _ => fl

/-- Classifier: is this report the high-key invariant violation. -/
def isHighKeyInv : CheckErr → Bool
  | .highKeyInvariant _ _ => true
  | _ => false

/-- Classifier: is this report the intra-page item order violation. -/
def isItemOrderInv : CheckErr → Bool
  | .itemOrderInvariant _ _ _ => true
  | _ => false

/-- Classifier: is this report the downlink lower bound violation. -/
def isDlLowerBound : CheckErr → Bool
  | .downlinkLowerBound _ _ _ => true
  | _ => false

/-- Concatenation of the fingerprinting additions over a list of offsets. -/
def fingerprintAddsAll (s : BtreeCheckState) (l : List Nat) : List IndexTuple :=
  l.foldr (fun o acc => fingerprintAddsSpec s o ++ acc) []

/-! Helper lemmas about the embedded definitions. -/

theorem mem_offsetRangeAux {o f n : Nat} :
    o ∈ offsetRangeAux f n ↔ f ≤ o ∧ o < f + n := by
  induction n generalizing f with
  | zero => simp [offsetRangeAux]
  | succ n ih =>
    simp only [offsetRangeAux, List.mem_cons, ih]
    omega

theorem mem_offsetRange {o f l : Nat} :
    o ∈ offsetRange f l ↔ f ≤ o ∧ o ≤ l := by
  simp only [offsetRange, mem_offsetRangeAux]
  omega

theorem PageGetItemIdCareful_ok {b : Nat} {p : PageModel} {o : Nat} {iid : ItemId}
    (h : PageGetItemIdCareful b p o = .ok iid) : iid = itemIdAt p o := by
  unfold PageGetItemIdCareful at h
  split at h
  · exact absurd h (by simp)
  · split at h
    · exact absurd h (by simp)
    · injection h with h
      exact h.symm

theorem PageGetItemIdCareful_err {b : Nat} {p : PageModel} {o : Nat} {e : CheckErr}
    (h : PageGetItemIdCareful b p o = .error e) : e = .lineNotValid b o := by
  unfold PageGetItemIdCareful at h
  split at h
  · injection h with h
    exact h.symm
  · split at h
    · injection h with h
      exact h.symm
    · exact absurd h (by simp)

theorem tidCareful_err {s : BtreeCheckState} {itup : IndexTuple} {np : Bool}
    {e : CheckErr} (h : BTreeTupleGetHeapTIDCareful s itup np = .error e) :
    e = .missingHeapTid s.targetblock := by
  unfold BTreeTupleGetHeapTIDCareful at h
  split at h
  · injection h with h
    exact h.symm
  · exact absurd h (by simp)

theorem invariant_l_offset_err {s : BtreeCheckState} {key : BTScanInsert}
    {u : Nat} {e : CheckErr} (h : invariant_l_offset s key u = .error e) :
    isHighKeyInv e = false ∧ isItemOrderInv e = false ∧ isDlLowerBound e = false := by
  unfold invariant_l_offset at h
  split at h
  next e2 heq =>
    injection h with h
    subst h
    rw [PageGetItemIdCareful_err heq]
    exact ⟨rfl, rfl, rfl⟩
  next =>
    split at h
    · exact absurd h (by simp)
    · split at h
      · split at h
        next e2 heq =>
          injection h with h
          subst h
          rw [tidCareful_err heq]
          exact ⟨rfl, rfl, rfl⟩
        next =>
          split at h <;> exact absurd h (by simp)
      · exact absurd h (by simp)

theorem invariant_l_nontarget_err {s : BtreeCheckState} {key : BTScanInsert}
    {nb : Nat} {np : PageModel} {u : Nat} {e : CheckErr}
    (h : invariant_l_nontarget_offset s key nb np u = .error e) :
    isHighKeyInv e = false ∧ isItemOrderInv e = false ∧ isDlLowerBound e = false := by
  unfold invariant_l_nontarget_offset at h
  split at h
  next e2 heq =>
    injection h with h
    subst h
    rw [PageGetItemIdCareful_err heq]
    exact ⟨rfl, rfl, rfl⟩
  next =>
    split at h
    · exact absurd h (by simp)
    · split at h
      · split at h
        next e2 heq =>
          injection h with h
          subst h
          rw [tidCareful_err heq]
          exact ⟨rfl, rfl, rfl⟩
        next =>
          split at h <;> exact absurd h (by simp)
      · exact absurd h (by simp)

theorem normalizeOneAtt_err {tid : Option (Nat × Nat)} {att : AttDesc}
    {v : Option AttValue} {e : CheckErr} (h : normalizeOneAtt tid att v = .error e) :
    e = .externalVarlena tid := by
  unfold normalizeOneAtt at h
  split at h
  · exact absurd h (by simp)
  · split at h
    · exact absurd h (by simp)
    · exact absurd h (by simp)
    · split at h
      · injection h with h
        exact h.symm
      · split at h
        · exact absurd h (by simp)
        · split at h
          · exact absurd h (by simp)
          · split at h <;> exact absurd h (by simp)

theorem normalizeAtts_err {tid : Option (Nat × Nat)}
    {l : List (AttDesc × Option AttValue)} {e : CheckErr}
    (h : normalizeAtts tid l = .error e) : e = .externalVarlena tid := by
  induction l with
  | nil => exact absurd h (by simp [normalizeAtts])
  | cons p rest ih =>
    obtain ⟨att, v⟩ := p
    unfold normalizeAtts at h
    split at h
    next e2 heq =>
      injection h with h
      subst h
      exact normalizeOneAtt_err heq
    next =>
      split at h
      next e2 heq =>
        injection h with h
        subst h
        exact ih heq
      next => exact absurd h (by simp)

theorem bt_normalize_tuple_err {rel : RelModel} {itup : IndexTuple} {e : CheckErr}
    (h : bt_normalize_tuple rel itup = .error e) :
    e = .externalVarlena itup.heapTid := by
  unfold bt_normalize_tuple at h
  split at h
  · exact absurd h (by simp)
  · split at h
    next e2 heq =>
      injection h with h
      subst h
      exact normalizeAtts_err heq
    next =>
      split at h <;> exact absurd h (by simp)

theorem pallocChecks_err {blocknum : Nat} {page : PageModel} {e : CheckErr}
    (h : pallocChecks blocknum page = .error e) :
    ∃ k, e = .fetchErr blocknum k := by
  unfold pallocChecks at h
  split at h
  · exact ⟨_, (by injection h with h; exact h.symm)⟩
  · split at h
    · split at h
      · exact ⟨_, (by injection h with h; exact h.symm)⟩
      · split at h
        · exact ⟨_, (by injection h with h; exact h.symm)⟩
        · exact absurd h (by simp)
    · split at h
      · exact ⟨_, (by injection h with h; exact h.symm)⟩
      · split at h
        · exact ⟨_, (by injection h with h; exact h.symm)⟩
        · split at h
          · exact ⟨_, (by injection h with h; exact h.symm)⟩
          · split at h
            · exact ⟨_, (by injection h with h; exact h.symm)⟩
            · split at h
              · exact ⟨_, (by injection h with h; exact h.symm)⟩
              · split at h
                · exact ⟨_, (by injection h with h; exact h.symm)⟩
                · split at h
                  · exact ⟨_, (by injection h with h; exact h.symm)⟩
                  · exact absurd h (by simp)

theorem palloc_err {disk : Nat → PageModel} {blocknum : Nat} {e : CheckErr}
    (h : palloc_btree_page disk blocknum = .error e) :
    ∃ k, e = .fetchErr blocknum k := by
  exact pallocChecks_err h

theorem palloc_ok {disk : Nat → PageModel} {blocknum : Nat} {page : PageModel}
    (h : palloc_btree_page disk blocknum = .ok page) : page = disk blocknum := by
  unfold palloc_btree_page pallocChecks at h
  split at h
  · exact absurd h (by simp)
  · split at h
    · split at h
      · exact absurd h (by simp)
      · split at h
        · exact absurd h (by simp)
        · injection h with h
          exact h.symm
    · split at h
      · exact absurd h (by simp)
      · split at h
        · exact absurd h (by simp)
        · split at h
          · exact absurd h (by simp)
          · split at h
            · exact absurd h (by simp)
            · split at h
              · exact absurd h (by simp)
              · split at h
                · exact absurd h (by simp)
                · split at h
                  · exact absurd h (by simp)
                  · injection h with h
                    exact h.symm

theorem fingerprintStage_err {s : BtreeCheckState} {iid : ItemId} {itup : IndexTuple}
    {fl : List IndexTuple} {e : CheckErr} (h : fingerprintStage s iid itup fl = .error e) :
    isHighKeyInv e = false ∧ isItemOrderInv e = false ∧ isDlLowerBound e = false := by
  unfold fingerprintStage at h
  split at h
  · split at h
    next e2 heq =>
      injection h with h
      subst h
      rw [bt_normalize_tuple_err heq]
      exact ⟨rfl, rfl, rfl⟩
    next => exact absurd h (by simp)
  · exact absurd h (by simp)

theorem fingerprintStage_ok_spec {s : BtreeCheckState} {o : Nat}
    {fl fl2 : List IndexTuple}
    (h : fingerprintStage s (itemIdAt s.target o) (tupleAt s.target o) fl = .ok fl2) :
    fl2 = fl ++ fingerprintAddsSpec s o := by
  unfold fingerprintStage at h
  unfold fingerprintAddsSpec
  split at h
  next hcond =>
    split at h
    next e2 heq => exact absurd h (by simp)
    next n heq =>
      injection h with h
      subst h
      rw [if_pos hcond, heq]
      rfl
  next hcond =>
    injection h with h
    subst h
    rw [if_neg hcond]
    simp

theorem highkeyStage_err {s : BtreeCheckState} {skey : BTScanInsert} {e : CheckErr}
    (h : highkeyStage s skey = .error e) :
    isHighKeyInv e = false ∧ isItemOrderInv e = false ∧ isDlLowerBound e = false := by
  unfold highkeyStage at h
  split at h
  · split at h
    · exact absurd h (by simp)
    · exact invariant_l_offset_err h
  · exact absurd h (by simp)

theorem highkeyStage_ok_leaf {s : BtreeCheckState} {skey : BTScanInsert} {b : Bool}
    (h : highkeyStage s skey = .ok b) (hnr : P_RIGHTMOST s.target = false)
    (hl : s.target.isLeaf = true) : invariant_leq_offset s skey P_HIKEY = b := by
  unfold highkeyStage at h
  simp only [hnr, hl, Bool.not_false, if_true] at h
  exact Except.ok.inj h

theorem highkeyStage_ok_internal {s : BtreeCheckState} {skey : BTScanInsert} {b : Bool}
    (h : highkeyStage s skey = .ok b) (hnr : P_RIGHTMOST s.target = false)
    (hl : s.target.isLeaf = false) : invariant_l_offset s skey P_HIKEY = .ok b := by
  unfold highkeyStage at h
  simp only [hnr, hl, Bool.not_false, if_true, Bool.false_eq_true, if_false] at h
  exact h

theorem orderStage_ok_lt {fuel : Nat} {s : BtreeCheckState} {skey : BTScanInsert}
    {o : Nat} {es : Bool} (h : orderStage fuel s skey o = .ok es)
    (hlt : o + 1 ≤ maxOff s.target) :
    invariant_l_offset s skey (o + 1) = .ok true ∧ es = false := by
  unfold orderStage at h
  rw [if_pos hlt] at h
  split at h
  next e2 heq => exact absurd h (by simp)
  next b heq =>
    split at h
    · exact absurd h (by simp)
    next hb =>
      have hb2 : b = true := by simpa using hb
      subst hb2
      injection h with h
      exact ⟨heq, h.symm⟩

theorem orderStage_ok_true {fuel : Nat} {s : BtreeCheckState} {skey : BTScanInsert}
    {o : Nat} (h : orderStage fuel s skey o = .ok true) :
    o = maxOff s.target ∧ ¬(o + 1 ≤ maxOff s.target) ∧
      check_last_item fuel s o = .ok true := by
  unfold orderStage at h
  split at h
  next hlt =>
    split at h
    next => exact absurd h (by simp)
    next b heq =>
      split at h
      · exact absurd h (by simp)
      · exact absurd h (by simp)
  next hge =>
    split at h
    next heqmax => exact ⟨by simpa using heqmax, hge, h⟩
    next => exact absurd h (by simp)

theorem check_last_item_ok_true {fuel : Nat} {s : BtreeCheckState} {o : Nat}
    (h : check_last_item fuel s o = .ok true) : s.readonly = false := by
  unfold check_last_item at h
  split at h
  next => exact absurd h (by simp)
  next => exact absurd h (by simp)
  next rk heq =>
    split at h
    · split at h
      next hro =>
        split at h
        next => exact absurd h (by simp)
        next =>
          split at h
          · simpa using hro
          · exact absurd h (by simp)
      next hro => exact absurd h (by simp)
    · exact absurd h (by simp)

theorem rightPageLoop_err {disk : Nat → PageModel} {fuel tn : Nat} {e : CheckErr}
    (h : rightPageLoop disk fuel tn = .error e) :
    isHighKeyInv e = false ∧ isItemOrderInv e = false ∧ isDlLowerBound e = false := by
  induction fuel generalizing tn with
  | zero =>
    unfold rightPageLoop at h
    injection h with h
    subst h
    exact ⟨rfl, rfl, rfl⟩
  | succ n ih =>
    unfold rightPageLoop at h
    split at h
    next e2 heq =>
      injection h with h
      subst h
      obtain ⟨k, hk⟩ := palloc_err heq
      subst hk
      exact ⟨rfl, rfl, rfl⟩
    next =>
      split at h
      · exact absurd h (by simp)
      · exact ih h

theorem bt_right_err {fuel : Nat} {s : BtreeCheckState} {e : CheckErr}
    (h : bt_right_page_check_scankey fuel s = .error e) :
    isHighKeyInv e = false ∧ isItemOrderInv e = false ∧ isDlLowerBound e = false := by
  unfold bt_right_page_check_scankey at h
  split at h
  · exact absurd h (by simp)
  · split at h
    next e2 heq =>
      injection h with h
      subst h
      exact rightPageLoop_err heq
    next pr heq =>
      split at h
      · split at h
        next e2 heq2 =>
          injection h with h
          subst h
          rw [PageGetItemIdCareful_err heq2]
          exact ⟨rfl, rfl, rfl⟩
        next => exact absurd h (by simp)
      · split at h
        · split at h
          next e2 heq2 =>
            injection h with h
            subst h
            rw [PageGetItemIdCareful_err heq2]
            exact ⟨rfl, rfl, rfl⟩
          next => exact absurd h (by simp)
        · exact absurd h (by simp)

theorem check_last_item_err {fuel : Nat} {s : BtreeCheckState} {o : Nat} {e : CheckErr}
    (h : check_last_item fuel s o = .error e) :
    isHighKeyInv e = false ∧ isItemOrderInv e = false ∧ isDlLowerBound e = false := by
  unfold check_last_item at h
  split at h
  next e2 heq =>
    injection h with h
    subst h
    exact bt_right_err heq
  next => exact absurd h (by simp)
  next rk heq =>
    split at h
    · split at h
      · split at h
        next e2 heq2 =>
          injection h with h
          subst h
          obtain ⟨k, hk⟩ := palloc_err heq2
          subst hk
          exact ⟨rfl, rfl, rfl⟩
        next =>
          split at h
          · exact absurd h (by simp)
          · injection h with h
            subst h
            exact ⟨rfl, rfl, rfl⟩
      · injection h with h
        subst h
        exact ⟨rfl, rfl, rfl⟩
    · exact absurd h (by simp)

theorem orderStage_err {fuel : Nat} {s : BtreeCheckState} {skey : BTScanInsert}
    {o : Nat} {e : CheckErr} (h : orderStage fuel s skey o = .error e) :
    isHighKeyInv e = false ∧ isDlLowerBound e = false ∧
      (isItemOrderInv e = true →
        e = .itemOrderInvariant s.targetblock o (o + 1) ∧ o + 1 ≤ maxOff s.target ∧
          invariant_l_offset s skey (o + 1) = .ok false) := by
  unfold orderStage at h
  split at h
  next hlt =>
    split at h
    next e2 heq =>
      injection h with h
      subst h
      obtain ⟨h1, h2, h3⟩ := invariant_l_offset_err heq
      exact ⟨h1, h3, fun hk => absurd hk (by simp [h2])⟩
    next b heq =>
      split at h
      next hb =>
        injection h with h
        subst h
        have hb2 : b = false := by simpa using hb
        subst hb2
        exact ⟨rfl, rfl, fun _ => ⟨rfl, hlt, heq⟩⟩
      next => exact absurd h (by simp)
  next hge =>
    split at h
    next =>
      obtain ⟨h1, h2, h3⟩ := check_last_item_err h
      exact ⟨h1, h3, fun hk => absurd hk (by simp [h2])⟩
    next => exact absurd h (by simp)

theorem downlinkCheckLoop_ok {s : BtreeCheckState} {tk : BTScanInsert} {cb : Nat}
    {child : PageModel} {l : List Nat} (h : downlinkCheckLoop s tk cb child l = .ok ()) :
    ∀ o ∈ l, offset_is_negative_infinity child o = false →
      invariant_l_nontarget_offset s tk cb child o = .ok true := by
  induction l with
  | nil => intro o ho; exact absurd ho (by simp)
  | cons a rest ih =>
    unfold downlinkCheckLoop at h
    split at h
    next hneg =>
      intro o ho hno
      rcases List.mem_cons.mp ho with rfl | ho2
      · exact absurd hneg (by simp [hno])
      · exact ih h o ho2 hno
    next hneg =>
      split at h
      next e2 heq => exact absurd h (by simp)
      next heq =>
        intro o ho hno
        rcases List.mem_cons.mp ho with rfl | ho2
        · exact heq
        · exact ih h o ho2 hno
      next heq => exact absurd h (by simp)

theorem downlinkCheckLoop_err {s : BtreeCheckState} {tk : BTScanInsert} {cb : Nat}
    {child : PageModel} {l : List Nat} {e : CheckErr}
    (h : downlinkCheckLoop s tk cb child l = .error e) :
    isHighKeyInv e = false ∧ isItemOrderInv e = false ∧
      (∀ p c off, e = .downlinkLowerBound p c off → p = s.targetblock) := by
  induction l with
  | nil => exact absurd h (by simp [downlinkCheckLoop])
  | cons a rest ih =>
    unfold downlinkCheckLoop at h
    split at h
    next => exact ih h
    next =>
      split at h
      next e2 heq =>
        injection h with h
        subst h
        obtain ⟨h1, h2, h3⟩ := invariant_l_nontarget_err heq
        refine ⟨h1, h2, fun p c off hk => ?_⟩
        rw [hk] at h3
        exact absurd h3 (by simp [isDlLowerBound])
      next => exact ih h
      next =>
        injection h with h
        subst h
        exact ⟨rfl, rfl, fun p c off hk => by injection hk with h1 h2 h3; exact h1.symm⟩

theorem bt_downlink_check_ok {s : BtreeCheckState} {tk : BTScanInsert} {cb : Nat}
    (h : bt_downlink_check s tk cb = .ok ()) :
    ∃ child, palloc_btree_page s.disk cb = .ok child ∧ child.isDeleted = false ∧
      ∀ o ∈ offsetRange (P_FIRSTDATAKEY child) (maxOff child),
        offset_is_negative_infinity child o = false →
          invariant_l_nontarget_offset s tk cb child o = .ok true := by
  unfold bt_downlink_check at h
  split at h
  next => exact absurd h (by simp)
  next child heq =>
    split at h
    · exact absurd h (by simp)
    next hdel =>
      exact ⟨child, heq, by simpa using hdel, downlinkCheckLoop_ok h⟩

theorem bt_downlink_check_err {s : BtreeCheckState} {tk : BTScanInsert} {cb : Nat}
    {e : CheckErr} (h : bt_downlink_check s tk cb = .error e) :
    isHighKeyInv e = false ∧ isItemOrderInv e = false ∧
      (∀ p c off, e = .downlinkLowerBound p c off → p = s.targetblock) := by
  unfold bt_downlink_check at h
  split at h
  next e2 heq =>
    injection h with h
    subst h
    obtain ⟨k, hk⟩ := palloc_err heq
    subst hk
    exact ⟨rfl, rfl, fun p c off hk => by simp at hk⟩
  next child heq =>
    split at h
    · injection h with h
      subst h
      exact ⟨rfl, rfl, fun p c off hk => by simp at hk⟩
    · exact downlinkCheckLoop_err h

theorem downlinkStage_err {s : BtreeCheckState} {skey : BTScanInsert}
    {itup : IndexTuple} {e : CheckErr} (h : downlinkStage s skey itup = .error e) :
    isHighKeyInv e = false ∧ isItemOrderInv e = false ∧
      (∀ p c off, e = .downlinkLowerBound p c off → p = s.targetblock) := by
  unfold downlinkStage at h
  split at h
  · exact bt_downlink_check_err h
  · exact absurd h (by simp)

theorem downlinkDescend_err {disk : Nat → PageModel} {tblock fuel level childblk : Nat}
    {e : CheckErr} (h : downlinkDescend disk tblock fuel level childblk = .error e) :
    isHighKeyInv e = false ∧ isItemOrderInv e = false ∧ isDlLowerBound e = false := by
  induction fuel generalizing level childblk with
  | zero =>
    unfold downlinkDescend at h
    injection h with h
    subst h
    exact ⟨rfl, rfl, rfl⟩
  | succ n ih =>
    unfold downlinkDescend at h
    split at h
    next e2 heq =>
      injection h with h
      subst h
      obtain ⟨k, hk⟩ := palloc_err heq
      subst hk
      exact ⟨rfl, rfl, rfl⟩
    next child heq =>
      split at h
      · exact absurd h (by simp)
      · split at h
        next =>
          injection h with h
          subst h
          exact ⟨rfl, rfl, rfl⟩
        next =>
          split at h
          next e2 heq2 =>
            injection h with h
            subst h
            rw [PageGetItemIdCareful_err heq2]
            exact ⟨rfl, rfl, rfl⟩
          next => exact ih h

theorem bt_downlink_missing_err {fuel : Nat} {s : BtreeCheckState} {dfl : List Nat}
    {e : CheckErr} (h : bt_downlink_missing_check fuel s dfl = .error e) :
    isHighKeyInv e = false ∧ isItemOrderInv e = false ∧ isDlLowerBound e = false := by
  unfold bt_downlink_missing_check at h
  split at h
  · exact absurd h (by simp)
  · split at h
    · exact absurd h (by simp)
    · split at h
      · exact absurd h (by simp)
      · split at h
        · injection h with h
          subst h
          exact ⟨rfl, rfl, rfl⟩
        · split at h
          next e2 heq =>
            injection h with h
            subst h
            rw [PageGetItemIdCareful_err heq]
            exact ⟨rfl, rfl, rfl⟩
          next =>
            split at h
            next e2 heq =>
              injection h with h
              subst h
              exact downlinkDescend_err heq
            next lp heq =>
              split at h
              · injection h with h
                subst h
                exact ⟨rfl, rfl, rfl⟩
              · split at h
                · split at h
                  next e2 heq2 =>
                    injection h with h
                    subst h
                    rw [PageGetItemIdCareful_err heq2]
                    exact ⟨rfl, rfl, rfl⟩
                  next =>
                    split at h
                    · exact absurd h (by simp)
                    · injection h with h
                      subst h
                      exact ⟨rfl, rfl, rfl⟩
                · injection h with h
                  subst h
                  exact ⟨rfl, rfl, rfl⟩

theorem benign_cases {e : CheckErr} {A B : Prop} {C : Nat → Prop}
    (h1 : isHighKeyInv e = false) (h2 : isItemOrderInv e = false)
    (h3 : isDlLowerBound e = false) :
    (isHighKeyInv e = true → A) ∧ (isItemOrderInv e = true → B) ∧
      (∀ p c off, e = CheckErr.downlinkLowerBound p c off → C p) := by
  refine ⟨fun hk => absurd hk (by simp [h1]), fun hk => absurd hk (by simp [h2]),
    fun p c off hk => ?_⟩
  subst hk
  simp [isDlLowerBound] at h3

theorem highkeyStage_false_not_rightmost {s : BtreeCheckState} {skey : BTScanInsert}
    (h : highkeyStage s skey = .ok false) : P_RIGHTMOST s.target = false := by
  unfold highkeyStage at h
  split at h
  next hc => simpa using hc
  next hc => exact absurd h (by simp)

theorem checkOneItem_ok {fuel : Nat} {s : BtreeCheckState} {fl : List IndexTuple}
    {dfl : List Nat} {o : Nat} {st : ItemStep}
    (h : checkOneItem fuel s fl dfl o = .ok st)
    (hni : offset_is_negative_infinity s.target o = false) :
    highkeyStage s (bt_mkscankey_pivotsearch s.rel (tupleAt s.target o)) = .ok true ∧
    ∃ es, orderStage fuel s (bt_mkscankey_pivotsearch s.rel (tupleAt s.target o)) o = .ok es ∧
      (es = true ∨ (es = false ∧
        downlinkStage s (bt_mkscankey_pivotsearch s.rel (tupleAt s.target o))
          (tupleAt s.target o) = .ok ())) := by
  unfold checkOneItem at h
  split at h
  · exact absurd h (by simp)
  next itemid hiid =>
    split at h
    · exact absurd h (by simp)
    · split at h
      · exact absurd h (by simp)
      · split at h
        next hneg => exact absurd hneg (by simp [hni])
        · split at h
          · exact absurd h (by simp)
          · split at h
            · exact absurd h (by simp)
            · split at h
              · exact absurd h (by simp)
              next fl2 hfp =>
                split at h
                · exact absurd h (by simp)
                next hik hhk =>
                  split at h
                  · exact absurd h (by simp)
                  next hhik =>
                    have hik2 : hik = true := by simpa using hhik
                    subst hik2
                    split at h
                    · exact absurd h (by simp)
                    next es hord =>
                      split at h
                      next hes =>
                        have hes2 : es = true := by simpa using hes
                        subst hes2
                        exact ⟨hhk, ⟨true, hord, Or.inl rfl⟩⟩
                      next hes =>
                        have hes2 : es = false := by simpa using hes
                        subst hes2
                        split at h
                        · exact absurd h (by simp)
                        next u hdl => exact ⟨hhk, ⟨false, hord, Or.inr ⟨rfl, hdl⟩⟩⟩

theorem checkOneItem_ok_filter {fuel : Nat} {s : BtreeCheckState}
    {fl : List IndexTuple} {dfl : List Nat} {o : Nat} {st : ItemStep}
    (h : checkOneItem fuel s fl dfl o = .ok st) :
    st.mainFilter = fl ++ fingerprintAddsSpec s o := by
  unfold checkOneItem at h
  split at h
  · exact absurd h (by simp)
  next itemid hiid =>
    have hiid2 : itemid = itemIdAt s.target o := PageGetItemIdCareful_ok hiid
    subst hiid2
    split at h
    · exact absurd h (by simp)
    · split at h
      · exact absurd h (by simp)
      · split at h
        next hneg =>
          injection h with h
          subst h
          have hl : s.target.isLeaf = false := by
            unfold offset_is_negative_infinity at hneg
            simp only [Bool.and_eq_true, Bool.not_eq_true'] at hneg
            exact hneg.1
          unfold fingerprintAddsSpec
          simp [ItemStep.mainFilter, hl]
        · split at h
          · exact absurd h (by simp)
          · split at h
            · exact absurd h (by simp)
            · split at h
              · exact absurd h (by simp)
              next fl2 hfp =>
                have hfl2 : fl2 = fl ++ fingerprintAddsSpec s o :=
                  fingerprintStage_ok_spec hfp
                split at h
                · exact absurd h (by simp)
                next hik hhk =>
                  split at h
                  · exact absurd h (by simp)
                  · split at h
                    · exact absurd h (by simp)
                    next es hord =>
                      split at h
                      next hes =>
                        injection h with h
                        subst h
                        simpa [ItemStep.mainFilter] using hfl2
                      next hes =>
                        split at h
                        · exact absurd h (by simp)
                        next u hdl =>
                          injection h with h
                          subst h
                          simpa [ItemStep.mainFilter] using hfl2

theorem checkOneItem_stop {fuel : Nat} {s : BtreeCheckState} {fl fl2 : List IndexTuple}
    {dfl dfl2 : List Nat} {o : Nat}
    (h : checkOneItem fuel s fl dfl o = .ok (.stop fl2 dfl2)) :
    o = maxOff s.target ∧ s.readonly = false := by
  unfold checkOneItem at h
  split at h
  · exact absurd h (by simp)
  next itemid hiid =>
    split at h
    · exact absurd h (by simp)
    · split at h
      · exact absurd h (by simp)
      · split at h
        next hneg => exact absurd h (by simp)
        · split at h
          · exact absurd h (by simp)
          · split at h
            · exact absurd h (by simp)
            · split at h
              · exact absurd h (by simp)
              next fl3 hfp =>
                split at h
                · exact absurd h (by simp)
                next hik hhk =>
                  split at h
                  · exact absurd h (by simp)
                  · split at h
                    · exact absurd h (by simp)
                    next es hord =>
                      split at h
                      next hes =>
                        have hes2 : es = true := by simpa using hes
                        subst hes2
                        obtain ⟨hmax, hgt, hcl⟩ := orderStage_ok_true hord
                        exact ⟨hmax, check_last_item_ok_true hcl⟩
                      next hes =>
                        split at h
                        · exact absurd h (by simp)
                        · exact absurd h (by simp)

theorem checkOneItem_err {fuel : Nat} {s : BtreeCheckState} {fl : List IndexTuple}
    {dfl : List Nat} {o : Nat} {e : CheckErr}
    (h : checkOneItem fuel s fl dfl o = .error e) :
    (isHighKeyInv e = true → e = .highKeyInvariant s.targetblock o ∧
      offset_is_negative_infinity s.target o = false ∧
      highkeyStage s (bt_mkscankey_pivotsearch s.rel (tupleAt s.target o)) = .ok false) ∧
    (isItemOrderInv e = true → e = .itemOrderInvariant s.targetblock o (o + 1) ∧
      offset_is_negative_infinity s.target o = false ∧ o + 1 ≤ maxOff s.target ∧
      invariant_l_offset s (bt_mkscankey_pivotsearch s.rel (tupleAt s.target o)) (o + 1) =
        .ok false) ∧
    (∀ p c off, e = CheckErr.downlinkLowerBound p c off → p = s.targetblock) := by
  unfold checkOneItem at h
  split at h
  next e2 heq =>
    injection h with h
    subst h
    have he := PageGetItemIdCareful_err heq
    subst he
    exact benign_cases rfl rfl rfl
  next itemid hiid =>
    split at h
    · injection h with h
      subst h
      exact benign_cases rfl rfl rfl
    · split at h
      · injection h with h
        subst h
        exact benign_cases rfl rfl rfl
      · split at h
        next hneg => exact absurd h (by simp)
        next hneg =>
          have hni : offset_is_negative_infinity s.target o = false := by
            simpa using hneg
          split at h
          · injection h with h
            subst h
            exact benign_cases rfl rfl rfl
          · split at h
            · injection h with h
              subst h
              exact benign_cases rfl rfl rfl
            · split at h
              next e2 hfp =>
                injection h with h
                subst h
                obtain ⟨h1, h2, h3⟩ := fingerprintStage_err hfp
                exact benign_cases h1 h2 h3
              next fl2 hfp =>
                split at h
                next e2 hhk =>
                  injection h with h
                  subst h
                  obtain ⟨h1, h2, h3⟩ := highkeyStage_err hhk
                  exact benign_cases h1 h2 h3
                next hik hhk =>
                  split at h
                  next hhik =>
                    injection h with h
                    subst h
                    have hik2 : hik = false := by simpa using hhik
                    subst hik2
                    refine ⟨fun _ => ⟨rfl, hni, hhk⟩, fun hk => absurd hk (by simp [isItemOrderInv]), ?_⟩
                    intro p c off hk
                    exact absurd hk (by simp)
                  next hhik =>
                    split at h
                    next e2 hord =>
                      injection h with h
                      subst h
                      obtain ⟨h1, h3, ho⟩ := orderStage_err hord
                      refine ⟨fun hk => absurd hk (by simp [h1]), ?_, ?_⟩
                      · intro hk
                        obtain ⟨he, hlt, hinv⟩ := ho hk
                        exact ⟨he, hni, hlt, hinv⟩
                      · intro p c off hk
                        subst hk
                        simp [isDlLowerBound] at h3
                    next es hord =>
                      split at h
                      · exact absurd h (by simp)
                      · split at h
                        next e2 hdl =>
                          injection h with h
                          subst h
                          obtain ⟨h1, h2, h3⟩ := downlinkStage_err hdl
                          exact ⟨fun hk => absurd hk (by simp [h1]),
                            fun hk => absurd hk (by simp [h2]), h3⟩
                        next => exact absurd h (by simp)

theorem offsetRange_nil {f l : Nat} (h : l < f) : offsetRange f l = [] := by
  unfold offsetRange
  have h2 : l + 1 - f = 0 := by omega
  rw [h2]
  rfl

theorem offsetRange_cons {f l : Nat} (h : f ≤ l) :
    offsetRange f l = f :: offsetRange (f + 1) l := by
  unfold offsetRange
  have h2 : l + 1 - f = (l + 1 - (f + 1)) + 1 := by omega
  rw [h2]
  rfl

theorem checkItems_err {fuel : Nat} {s : BtreeCheckState} {l : List Nat}
    {fl : List IndexTuple} {dfl : List Nat} {e : CheckErr}
    (h : checkItems fuel s l fl dfl = .error e) :
    ∃ o ∈ l, ∃ fl1 dfl1, checkOneItem fuel s fl1 dfl1 o = .error e := by
  induction l generalizing fl dfl with
  | nil => exact absurd h (by simp [checkItems])
  | cons a rest ih =>
    unfold checkItems at h
    split at h
    next e2 heq =>
      injection h with h
      subst h
      exact ⟨a, List.mem_cons_self a rest, fl, dfl, heq⟩
    next fl2 dfl2 heq =>
      obtain ⟨o, ho, w⟩ := ih h
      exact ⟨o, List.mem_cons_of_mem a ho, w⟩
    next => exact absurd h (by simp)

theorem checkItems_ok_mem {fuel : Nat} {s : BtreeCheckState} (n : Nat) :
    ∀ {f : Nat} {fl : List IndexTuple} {dfl : List Nat}
      {res : List IndexTuple × List Nat × Bool},
      maxOff s.target + 1 - f ≤ n →
      checkItems fuel s (offsetRange f (maxOff s.target)) fl dfl = .ok res →
      ∀ o, f ≤ o → o ≤ maxOff s.target →
        ∃ fl1 dfl1 st, checkOneItem fuel s fl1 dfl1 o = .ok st := by
  induction n with
  | zero =>
    intro f fl dfl res hn h o hfo hom
    exfalso
    omega
  | succ n ih =>
    intro f fl dfl res hn h o hfo hom
    have hfle : f ≤ maxOff s.target := le_trans hfo hom
    rw [offsetRange_cons hfle] at h
    unfold checkItems at h
    split at h
    · exact absurd h (by simp)
    next fl2 dfl2 heq =>
      rcases eq_or_lt_of_le hfo with rfl | hlt
      · exact ⟨fl, dfl, _, heq⟩
      · exact ih (by omega) h o (by omega) hom
    next fl2 dfl2 heq =>
      rcases eq_or_lt_of_le hfo with rfl | hlt
      · exact ⟨fl, dfl, _, heq⟩
      · obtain ⟨hmax, hro⟩ := checkOneItem_stop heq
        exfalso
        omega

theorem fingerprintAddsAll_cons {s : BtreeCheckState} {a : Nat} {rest : List Nat} :
    fingerprintAddsAll s (a :: rest) =
      fingerprintAddsSpec s a ++ fingerprintAddsAll s rest := rfl

theorem checkItems_filter {fuel : Nat} {s : BtreeCheckState} (n : Nat) :
    ∀ {f : Nat} {fl : List IndexTuple} {dfl : List Nat}
      {res : List IndexTuple × List Nat × Bool},
      maxOff s.target + 1 - f ≤ n →
      checkItems fuel s (offsetRange f (maxOff s.target)) fl dfl = .ok res →
      res.1 = fl ++ fingerprintAddsAll s (offsetRange f (maxOff s.target)) := by
  induction n with
  | zero =>
    intro f fl dfl res hn h
    rw [offsetRange_nil (by omega)] at h ⊢
    unfold checkItems at h
    injection h with h
    subst h
    simp [fingerprintAddsAll]
  | succ n ih =>
    intro f fl dfl res hn h
    by_cases hfle : f ≤ maxOff s.target
    · rw [offsetRange_cons hfle] at h ⊢
      unfold checkItems at h
      split at h
      · exact absurd h (by simp)
      next fl2 dfl2 heq =>
        have hfl2 : fl2 = fl ++ fingerprintAddsSpec s f := by
          simpa [ItemStep.mainFilter] using checkOneItem_ok_filter heq
        rw [fingerprintAddsAll_cons, ih (by omega) h, hfl2, List.append_assoc]
      next fl2 dfl2 heq =>
        injection h with h
        subst h
        have hfl2 : fl2 = fl ++ fingerprintAddsSpec s f := by
          simpa [ItemStep.mainFilter] using checkOneItem_ok_filter heq
        obtain ⟨hmax, hro⟩ := checkOneItem_stop heq
        rw [fingerprintAddsAll_cons, offsetRange_nil (by omega)]
        simpa [fingerprintAddsAll] using hfl2
    · rw [offsetRange_nil (by omega)] at h ⊢
      unfold checkItems at h
      injection h with h
      subst h
      simp [fingerprintAddsAll]

theorem bt_target_ok_checkItems {fuel : Nat} {s : BtreeCheckState}
    {res : List IndexTuple × List Nat}
    (h : bt_target_page_check fuel s = .ok res) :
    ∃ stopped, checkItems fuel s (offsetRange (P_FIRSTDATAKEY s.target) (maxOff s.target))
      s.filter s.downlinkfilter = .ok (res.1, res.2, stopped) := by
  unfold bt_target_page_check at h
  split at h
  · exact absurd h (by simp)
  · split at h
    · exact absurd h (by simp)
    next fl dfl stopped heq =>
      split at h
      · injection h with h
        subst h
        exact ⟨stopped, heq⟩
      · split at h
        · split at h
          · exact absurd h (by simp)
          · injection h with h
            subst h
            exact ⟨stopped, heq⟩
        · injection h with h
          subst h
          exact ⟨stopped, heq⟩

theorem bt_target_err {fuel : Nat} {s : BtreeCheckState} {e : CheckErr}
    (h : bt_target_page_check fuel s = .error e)
    (hcls : isHighKeyInv e = true ∨ isItemOrderInv e = true ∨ isDlLowerBound e = true) :
    ∃ o, P_FIRSTDATAKEY s.target ≤ o ∧ o ≤ maxOff s.target ∧
      ∃ fl1 dfl1, checkOneItem fuel s fl1 dfl1 o = .error e := by
  unfold bt_target_page_check at h
  split at h
  next e2 heq =>
    injection h with h
    subst h
    exfalso
    split at heq
    · split at heq
      next e3 heq2 =>
        injection heq with heq
        subst heq
        have := PageGetItemIdCareful_err heq2
        subst this
        simp [isHighKeyInv, isItemOrderInv, isDlLowerBound] at hcls
      next =>
        split at heq
        · injection heq with heq
          subst heq
          simp [isHighKeyInv, isItemOrderInv, isDlLowerBound] at hcls
        · exact absurd heq (by simp)
    · exact absurd heq (by simp)
  next heq =>
    split at h
    next e2 heq2 =>
      injection h with h
      subst h
      obtain ⟨o, ho, fl1, dfl1, hone⟩ := checkItems_err heq2
      obtain ⟨h1, h2⟩ := mem_offsetRange.mp ho
      exact ⟨o, h1, h2, fl1, dfl1, hone⟩
    next fl dfl stopped heq2 =>
      split at h
      · exact absurd h (by simp)
      · split at h
        · split at h
          next e2 heq3 =>
            injection h with h
            subst h
            exfalso
            obtain ⟨k1, k2, k3⟩ := bt_downlink_missing_err heq3
            rcases hcls with hk | hk | hk
            · rw [k1] at hk
              exact absurd hk (by simp)
            · rw [k2] at hk
              exact absurd hk (by simp)
            · rw [k3] at hk
              exact absurd hk (by simp)
          next => exact absurd h (by simp)
        · exact absurd h (by simp)

theorem normalizeOneAtt_normal {tid : Option (Nat × Nat)} {att : AttDesc}
    {v : Option AttValue} (h : attNormalized (att, v) = true) :
    normalizeOneAtt tid att v = .ok (v, false) := by
  unfold attNormalized at h
  unfold normalizeOneAtt
  by_cases hc : (att.attbyval || !(att.attlen == -1)) = true
  · rw [if_pos hc]
  · rw [if_neg hc]
    rw [if_neg hc] at h
    match v with
    | none => rfl
    | some (.fixedVal n) => rfl
    | some (.varVal w) =>
      simp only [Bool.and_eq_true, Bool.not_eq_true'] at h
      obtain ⟨⟨⟨hext, hcomp⟩, hshort⟩, hbig⟩ := h
      have hcond2 : (!varIsCompressed w && decide (varSize w > TOAST_INDEX_TARGET) &&
          compressibleStorage att.attstorage) = false := by
        cases hd : decide (varSize w > TOAST_INDEX_TARGET) <;>
          cases hs : compressibleStorage att.attstorage <;> simp_all
      simp [hext, hcomp, hshort, hcond2]
      intro hgt
      cases hs : compressibleStorage att.attstorage
      · rfl
      · rw [hs] at hbig
        simp [hgt] at hbig

theorem normalizeAtts_normal {tid : Option (Nat × Nat)}
    {l : List (AttDesc × Option AttValue)} (h : l.all attNormalized = true) :
    normalizeAtts tid l = .ok (l.map Prod.snd, false) := by
  induction l with
  | nil => rfl
  | cons p rest ih =>
    obtain ⟨att, v⟩ := p
    simp only [List.all_cons, Bool.and_eq_true] at h
    obtain ⟨h1, h2⟩ := h
    unfold normalizeAtts
    rw [normalizeOneAtt_normal h1, ih h2]
    rfl

theorem mem_fingerprintAddsAll {s : BtreeCheckState} {l : List Nat} {o : Nat}
    {n : IndexTuple} (ho : o ∈ l) (hn : n ∈ fingerprintAddsSpec s o) :
    n ∈ fingerprintAddsAll s l := by
  induction l with
  | nil => exact absurd ho (by simp)
  | cons a rest ih =>
    rw [fingerprintAddsAll_cons]
    rcases List.mem_cons.mp ho with rfl | ho2
    · exact List.mem_append_left _ hn
    · exact List.mem_append_right _ (ih ho2)

theorem checkOneItem_ok_normalized {fuel : Nat} {s : BtreeCheckState}
    {fl : List IndexTuple} {dfl : List Nat} {o : Nat} {st : ItemStep}
    (h : checkOneItem fuel s fl dfl o = .ok st)
    (hha : s.heapallindexed = true) (hl : s.target.isLeaf = true)
    (hlive : (itemIdAt s.target o).lp_flags ≠ LPFlag.dead) :
    ∃ n, bt_normalize_tuple s.rel (tupleAt s.target o) = .ok n := by
  unfold checkOneItem at h
  split at h
  · exact absurd h (by simp)
  next itemid hiid =>
    have hiid2 : itemid = itemIdAt s.target o := PageGetItemIdCareful_ok hiid
    subst hiid2
    split at h
    · exact absurd h (by simp)
    · split at h
      · exact absurd h (by simp)
      · split at h
        next hneg =>
          exfalso
          unfold offset_is_negative_infinity at hneg
          rw [hl] at hneg
          simp at hneg
        · split at h
          · exact absurd h (by simp)
          · split at h
            · exact absurd h (by simp)
            · split at h
              · exact absurd h (by simp)
              next fl2 hfp =>
                unfold fingerprintStage at hfp
                rw [if_pos (by simp [hha, hl, hlive])] at hfp
                split at hfp
                · exact absurd hfp (by simp)
                next n heq => exact ⟨n, heq⟩

/-! Claim theorems. -/

/-- C1: For every non-rightmost page validated by the page validator, every
real (non-negative-infinity) entry satisfies the high-key bound: lessOrEqual
against the high key on leaf pages and strictlyLess on internal pages; a
high-key violation is reported as corruption at that block and offset. -/
theorem high_key_bound_check (fuel : Nat) (s : BtreeCheckState) :
    (∀ res, bt_target_page_check fuel s = .ok res → P_RIGHTMOST s.target = false →
      ∀ o, P_FIRSTDATAKEY s.target ≤ o → o ≤ maxOff s.target →
        offset_is_negative_infinity s.target o = false →
        (s.target.isLeaf = true →
          invariant_leq_offset s (bt_mkscankey_pivotsearch s.rel (tupleAt s.target o))
            P_HIKEY = true) ∧
        (s.target.isLeaf = false →
          invariant_l_offset s (bt_mkscankey_pivotsearch s.rel (tupleAt s.target o))
            P_HIKEY = .ok true)) ∧
    (∀ e b o, bt_target_page_check fuel s = .error e → e = .highKeyInvariant b o →
      b = s.targetblock ∧ P_FIRSTDATAKEY s.target ≤ o ∧ o ≤ maxOff s.target ∧
        offset_is_negative_infinity s.target o = false ∧ P_RIGHTMOST s.target = false ∧
        (s.target.isLeaf = true →
          invariant_leq_offset s (bt_mkscankey_pivotsearch s.rel (tupleAt s.target o))
            P_HIKEY = false) ∧
        (s.target.isLeaf = false →
          invariant_l_offset s (bt_mkscankey_pivotsearch s.rel (tupleAt s.target o))
            P_HIKEY = .ok false)) := by
  constructor
  · intro res hok hnr o h1 h2 hni
    obtain ⟨stopped, hci⟩ := bt_target_ok_checkItems hok
    obtain ⟨fl1, dfl1, st, hone⟩ :=
      checkItems_ok_mem (maxOff s.target + 1) (by omega) hci o h1 h2
    obtain ⟨hhk, _⟩ := checkOneItem_ok hone hni
    exact ⟨fun hl => highkeyStage_ok_leaf hhk hnr hl,
      fun hl => highkeyStage_ok_internal hhk hnr hl⟩
  · intro e b o herr hke
    subst hke
    obtain ⟨o2, ho1, ho2, fl1, dfl1, hone⟩ := bt_target_err herr (Or.inl rfl)
    obtain ⟨hHK, _, _⟩ := checkOneItem_err hone
    obtain ⟨heq, hni, hfail⟩ := hHK rfl
    injection heq with hb ho
    subst hb
    subst ho
    have hnr := highkeyStage_false_not_rightmost hfail
    exact ⟨rfl, ho1, ho2, hni, hnr,
      fun hl => highkeyStage_ok_leaf hfail hnr hl,
      fun hl => highkeyStage_ok_internal hfail hnr hl⟩

/-- Witness for C1 at a concrete clean leaf page. -/
theorem high_key_bound_check_witness :
    invariant_leq_offset exState1
      (bt_mkscankey_pivotsearch exState1.rel (tupleAt exState1.target 2)) P_HIKEY = true :=
  ((high_key_bound_check 20 exState1).1 ([], []) (by decide) (by decide) 2
    (by decide) (by decide) (by decide)).1 (by decide)

/-- C2: Every validated entry with a successor on the same page satisfies
strictlyLess against that successor (negative-infinity entries excluded); a
violation is reported as corruption identifying both offsets. -/
theorem intra_page_order_check (fuel : Nat) (s : BtreeCheckState) :
    (∀ res, bt_target_page_check fuel s = .ok res →
      ∀ o, P_FIRSTDATAKEY s.target ≤ o → o + 1 ≤ maxOff s.target →
        offset_is_negative_infinity s.target o = false →
        invariant_l_offset s (bt_mkscankey_pivotsearch s.rel (tupleAt s.target o))
          (o + 1) = .ok true) ∧
    (∀ e b lo hi, bt_target_page_check fuel s = .error e →
      e = .itemOrderInvariant b lo hi →
      b = s.targetblock ∧ hi = lo + 1 ∧ P_FIRSTDATAKEY s.target ≤ lo ∧
        lo + 1 ≤ maxOff s.target ∧ offset_is_negative_infinity s.target lo = false ∧
        invariant_l_offset s (bt_mkscankey_pivotsearch s.rel (tupleAt s.target lo))
          (lo + 1) = .ok false) := by
  constructor
  · intro res hok o h1 h2 hni
    obtain ⟨stopped, hci⟩ := bt_target_ok_checkItems hok
    obtain ⟨fl1, dfl1, st, hone⟩ :=
      checkItems_ok_mem (maxOff s.target + 1) (by omega) hci o h1 (by omega)
    obtain ⟨_, es, hord, _⟩ := checkOneItem_ok hone hni
    exact (orderStage_ok_lt hord h2).1
  · intro e b lo hi herr hke
    subst hke
    obtain ⟨o2, ho1, ho2, fl1, dfl1, hone⟩ := bt_target_err herr (Or.inr (Or.inl rfl))
    obtain ⟨_, hIO, _⟩ := checkOneItem_err hone
    obtain ⟨heq, hni, hlt, hinv⟩ := hIO rfl
    injection heq with hb hlo hhi
    subst hb
    subst hlo
    subst hhi
    exact ⟨rfl, rfl, ho1, hlt, hni, hinv⟩

/-- Witness for C2 at a concrete clean leaf page. -/
theorem intra_page_order_check_witness :
    invariant_l_offset exState1
      (bt_mkscankey_pivotsearch exState1.rel (tupleAt exState1.target 2)) 3 = .ok true :=
  (intra_page_order_check 20 exState1).1 ([], []) (by decide) 2
    (by decide) (by decide) (by decide)

/-- C3 counterexample: the claim's tie-break condition (the offset's entry a
boundary tuple with fewer key components than the key) predicts true, but
invariant_l_offset returns false at that input; the source instead treats the
key's own missing attributes as minus infinity, the opposite direction. -/
theorem strictly_less_tiebreak_cex :
    claimC3StrictlyLess exState3 exKey3 1 = true ∧
      invariant_l_offset exState3 exKey3 1 = .ok false :=
  ⟨by decide, by decide⟩

/-- C3 (amended): for a heapkeyspace key, when the line pointer is valid and
the mandatory-TID check passes, strictlyLess holds iff compare is negative,
or compare is zero and either the key has fewer key components than the
offset's entry, or key and entry have the same key-component count, the
entry carries a heap TID and the key has no scan TID. -/
theorem strictly_less_tiebreak_amended (s : BtreeCheckState) (key : BTScanInsert)
    (u : Nat) (hks : key.heapkeyspace = true)
    (hlp : ∃ iid, PageGetItemIdCareful s.targetblock s.target u = .ok iid)
    (htid : ¬((s.target.isLeaf && decide (u ≥ P_FIRSTDATAKEY s.target)) = true ∧
      (tupleAt s.target u).heapTid = none)) :
    invariant_l_offset s key u = .ok true ↔
      (bt_compare_model s key s.target u < 0 ∨
        (bt_compare_model s key s.target u = 0 ∧
          (key.keysz < BTreeTupleGetNKeyAtts s.rel (tupleAt s.target u) ∨
            (key.keysz = BTreeTupleGetNKeyAtts s.rel (tupleAt s.target u) ∧
              key.scantid = none ∧ (tupleAt s.target u).heapTid ≠ none)))) := by
  obtain ⟨iid, hiid⟩ := hlp
  have hTid : BTreeTupleGetHeapTIDCareful s (tupleAt s.target u)
      (s.target.isLeaf && decide (u ≥ P_FIRSTDATAKEY s.target)) =
        .ok (tupleAt s.target u).heapTid := by
    unfold BTreeTupleGetHeapTIDCareful
    split
    next hc =>
      exfalso
      apply htid
      simp only [Bool.and_eq_true, Option.isNone_iff_eq_none] at hc
      exact ⟨by simp [hc.2.1, hc.2.2], hc.1⟩
    next => rfl
  unfold invariant_l_offset
  rw [hiid]
  simp only [hks, Bool.not_true, Bool.false_eq_true, if_false]
  by_cases hcmp : (bt_compare_model s key s.target u == 0) = true
  · rw [if_pos hcmp, hTid]
    have hc0 : bt_compare_model s key s.target u = 0 := by
      simpa using hcmp
    by_cases hksz : (key.keysz == BTreeTupleGetNKeyAtts s.rel (tupleAt s.target u)) = true
    · simp only [hksz, if_true]
      have hke : key.keysz = BTreeTupleGetNKeyAtts s.rel (tupleAt s.target u) := by
        simpa using hksz
      constructor
      · intro h
        injection h with h
        simp only [Bool.and_eq_true, Option.isNone_iff_eq_none,
          Option.isSome_iff_ne_none] at h
        exact Or.inr ⟨hc0, Or.inr ⟨hke, h.1, h.2⟩⟩
      · intro h
        rcases h with h | ⟨h0, h | ⟨hke2, hsc, hht⟩⟩
        · omega
        · omega
        · simp [Option.isNone_iff_eq_none, Option.isSome_iff_ne_none, hsc, hht]
    · have hkszf : (key.keysz == BTreeTupleGetNKeyAtts s.rel (tupleAt s.target u)) = false := by
        simpa using hksz
      simp only [hkszf, Bool.false_eq_true, if_false]
      have hke : key.keysz ≠ BTreeTupleGetNKeyAtts s.rel (tupleAt s.target u) := by
        simpa using hksz
      constructor
      · intro h
        injection h with h
        exact Or.inr ⟨hc0, Or.inl (by simpa using h)⟩
      · intro h
        rcases h with h | ⟨h0, h | ⟨hke2, hsc, hht⟩⟩
        · omega
        · simp [h]
        · exact absurd hke2 hke
  · rw [if_neg hcmp]
    have hc0 : bt_compare_model s key s.target u ≠ 0 := by
      simpa using hcmp
    constructor
    · intro h
      injection h with h
      exact Or.inl (by simpa using h)
    · intro h
      rcases h with h | ⟨h0, _⟩
      · simp [h]
      · exact absurd h0 hc0

/-- Witness for the amended C3 at a key strictly below the pivot. -/
theorem strictly_less_tiebreak_witness :
    invariant_l_offset exState3 exKey3b 1 = .ok true :=
  (strictly_less_tiebreak_amended exState3 exKey3b 1 (by decide)
    ⟨liveIid, by decide⟩ (by decide)).mpr (by decide)

/-- C4: In readonly mode, for every real downlink entry of a validated
internal page, every entry of the child page except its negative-infinity
entry satisfies the strict lower bound from the parent's key; a violation is
blamed on the parent block; the check is not performed in online mode, as
the concrete online state with a bound-violating child passing validation
shows. -/
theorem downlink_lower_bound_check (fuel : Nat) (s : BtreeCheckState) :
    (∀ res, bt_target_page_check fuel s = .ok res → s.readonly = true →
      s.target.isLeaf = false →
      ∀ o, P_FIRSTDATAKEY s.target ≤ o → o ≤ maxOff s.target →
        offset_is_negative_infinity s.target o = false →
        ∀ child, palloc_btree_page s.disk (tupleAt s.target o).downlink = .ok child →
          child.isDeleted = false ∧
          ∀ coff, P_FIRSTDATAKEY child ≤ coff → coff ≤ maxOff child →
            offset_is_negative_infinity child coff = false →
            invariant_l_nontarget_offset s
              (bt_mkscankey_pivotsearch s.rel (tupleAt s.target o))
              (tupleAt s.target o).downlink child coff = .ok true) ∧
    (∀ e p c off, bt_target_page_check fuel s = .error e →
      e = .downlinkLowerBound p c off → p = s.targetblock) ∧
    (bt_target_page_check 20 exState4on = .ok ([], []) ∧
      invariant_l_nontarget_offset exState4on
        (bt_mkscankey_pivotsearch exRel (mkPivot 10 3)) 3 exChildBad 1 = .ok false) := by
  refine ⟨?_, ?_, by decide, by decide⟩
  · intro res hok hro hlf o h1 h2 hni child hchild
    obtain ⟨stopped, hci⟩ := bt_target_ok_checkItems hok
    obtain ⟨fl1, dfl1, st, hone⟩ :=
      checkItems_ok_mem (maxOff s.target + 1) (by omega) hci o h1 h2
    obtain ⟨_, es, hord, hdisj⟩ := checkOneItem_ok hone hni
    rcases hdisj with hes | ⟨hes, hdl⟩
    · subst hes
      obtain ⟨_, _, hcl⟩ := orderStage_ok_true hord
      have hro2 := check_last_item_ok_true hcl
      rw [hro] at hro2
      exact absurd hro2 (by simp)
    · have hbd : bt_downlink_check s
          (bt_mkscankey_pivotsearch s.rel (tupleAt s.target o))
          (tupleAt s.target o).downlink = .ok () := by
        unfold downlinkStage at hdl
        rw [if_pos (by simp [hlf, hro])] at hdl
        exact hdl
      obtain ⟨child2, hch2, hdel, hall⟩ := bt_downlink_check_ok hbd
      rw [hchild] at hch2
      have hcc : child = child2 := Except.ok.inj hch2
      subst hcc
      exact ⟨hdel, fun coff hc1 hc2 hcni =>
        hall coff (mem_offsetRange.mpr ⟨hc1, hc2⟩) hcni⟩
  · intro e p c off herr he
    subst he
    obtain ⟨o2, _, _, fl1, dfl1, hone⟩ := bt_target_err herr (Or.inr (Or.inr rfl))
    obtain ⟨_, _, hdl⟩ := checkOneItem_err hone
    exact hdl p c off rfl

/-- Witness for C4 at a concrete readonly internal page with a clean child. -/
theorem downlink_lower_bound_check_witness :
    invariant_l_nontarget_offset exState4
      (bt_mkscankey_pivotsearch exState4.rel (tupleAt exState4.target 2))
      (tupleAt exState4.target 2).downlink exChildGood 1 = .ok true :=
  (((downlink_lower_bound_check 20 exState4).1 ([], []) (by decide) (by decide)
    (by decide) 2 (by decide) (by decide) (by decide) exChildGood (by decide)).2
    1 (by decide) (by decide) (by decide))

/-- C5: When the cross-page last-item check appears to fail, an online-mode
verifier re-fetches the target and silently abandons the page's check when
the re-fetched page is ignorable, while a readonly verifier reports the
cross-page corruption directly; over the same page bytes the two modes
diverge exactly that way, as the concrete pair of runs shows. -/
theorem cross_page_race_handling :
    (∀ fuel (s : BtreeCheckState) (offset : Nat) (k : BTScanInsert),
      bt_right_page_check_scankey fuel s = .ok (some k) →
      invariant_g_offset s k offset = false →
      ((s.readonly = false → ∀ p, palloc_btree_page s.disk s.targetblock = .ok p →
          P_IGNORE p = true → check_last_item fuel s offset = .ok true) ∧
       (s.readonly = true →
          check_last_item fuel s offset =
            .error (.crossPageItemOrder s.targetblock offset)))) ∧
    bt_target_page_check 20 exOnline5 = .ok ([], []) ∧
    bt_target_page_check 20 exReadonly5 = .error (.crossPageItemOrder 4 2) := by
  refine ⟨?_, by decide, by decide⟩
  intro fuel s offset k hrk hinv
  constructor
  · intro hro p hp hig
    unfold check_last_item
    rw [hrk]
    simp [hinv, hro, hp, hig]
  · intro hro
    unfold check_last_item
    rw [hrk]
    simp [hinv, hro]

/-- Witness for C5's general part at the concrete online race state. -/
theorem cross_page_race_handling_witness :
    check_last_item 20 exOnline5 2 = .ok true :=
  (cross_page_race_handling.1 20 exOnline5 2
    (bt_mkscankey_pivotsearch exRel (mkEntry 3 (2, 1))) (by decide) (by decide)).1
    (by decide) deletedLeafPage (by decide) (by decide)

/-- C6: In a heapallindexed run, the normalized form of every live leaf
entry of a validated page is in the returned main filter, and the heap-scan
callback reports MissingIndexEntry naming the row's TID exactly for rows
whose normalized entry is absent from the filter. -/
theorem heapallindexed_fingerprint_probe :
    (∀ fuel (s : BtreeCheckState) res, bt_target_page_check fuel s = .ok res →
      s.heapallindexed = true → s.target.isLeaf = true →
      ∀ o, P_FIRSTDATAKEY s.target ≤ o → o ≤ maxOff s.target →
        (itemIdAt s.target o).lp_flags ≠ LPFlag.dead →
        ∃ n, bt_normalize_tuple s.rel (tupleAt s.target o) = .ok n ∧ n ∈ res.1) ∧
    (∀ (s : BtreeCheckState) (values : List (Option AttValue)) (tid : Nat × Nat) n,
      bt_normalize_tuple s.rel (index_form_tuple s.rel values tid) = .ok n →
      (n ∉ s.filter →
        bt_tuple_present_callback s values tid = .error (.heapTupleMissing tid)) ∧
      (n ∈ s.filter → bt_tuple_present_callback s values tid = .ok ())) := by
  constructor
  · intro fuel s res hok hha hl o h1 h2 hlive
    obtain ⟨stopped, hci⟩ := bt_target_ok_checkItems hok
    obtain ⟨fl1, dfl1, st, hone⟩ :=
      checkItems_ok_mem (maxOff s.target + 1) (by omega) hci o h1 h2
    obtain ⟨n, hn⟩ := checkOneItem_ok_normalized hone hha hl hlive
    refine ⟨n, hn, ?_⟩
    have hchar := checkItems_filter (maxOff s.target + 1) (by omega) hci
    rw [hchar]
    have hmemo : n ∈ fingerprintAddsSpec s o := by
      unfold fingerprintAddsSpec
      rw [if_pos (by simp [hha, hl, hlive]), hn]
      exact List.mem_singleton.mpr rfl
    exact List.mem_append_right _
      (mem_fingerprintAddsAll (mem_offsetRange.mpr ⟨h1, h2⟩) hmemo)
  · intro s values tid n hn
    constructor
    · intro hnot
      unfold bt_tuple_present_callback
      rw [hn]
      simp [bloom_lacks_element, hnot]
    · intro hmem
      unfold bt_tuple_present_callback
      rw [hn]
      simp [bloom_lacks_element, hmem]

/-- Witness for C6: the live entry is fingerprinted and the callback reports
exactly the unindexed row. -/
theorem heapallindexed_fingerprint_probe_witness :
    (∃ n, bt_normalize_tuple exState6.rel (tupleAt exState6.target 1) = .ok n ∧
      n ∈ ([mkEntry 5 (1, 1)], ([] : List Nat)).1) ∧
    bt_tuple_present_callback exDrain6 [some (.fixedVal 9)] (3, 3) =
      .error (.heapTupleMissing (3, 3)) ∧
    bt_tuple_present_callback exDrain6 [some (.fixedVal 5)] (1, 1) = .ok () :=
  ⟨heapallindexed_fingerprint_probe.1 20 exState6 ([mkEntry 5 (1, 1)], []) (by decide)
      (by decide) (by decide) 1 (by decide) (by decide) (by decide),
   (heapallindexed_fingerprint_probe.2 exDrain6 [some (.fixedVal 9)] (3, 3)
      (mkEntry 9 (3, 3)) (by decide)).1 (by decide),
   (heapallindexed_fingerprint_probe.2 exDrain6 [some (.fixedVal 5)] (1, 1)
      (mkEntry 5 (1, 1)) (by decide)).2 (by decide)⟩

/-- C7 counterexample: at the reserved metadata block, a page that is not
meta-flagged fails fetching although none of the claim's listed conditions
holds, so the claimed equivalence is false at block 0. -/
theorem page_fetch_sanity_cex :
    claimC7FailCond 0 pgPlainLeaf = false ∧
      palloc_btree_page (fun _ => pgPlainLeaf) 0 = .error (.fetchErr 0 .metaCorrupt) :=
  ⟨by decide, by decide⟩

/-- C7 (amended): for every block other than the reserved metadata block,
fetching fails with a corruption report identifying that block exactly when
one of the listed structural-sanity conditions holds; the metadata block is
instead subject to its own metadata checks. -/
theorem page_fetch_sanity_amended (disk : Nat → PageModel) (b : Nat)
    (hb : b ≠ BTREE_METAPAGE) :
    (∃ k, palloc_btree_page disk b = .error (.fetchErr b k)) ↔
      claimC7FailCond b (disk b) = true := by
  constructor
  · rintro ⟨k, hk⟩
    unfold palloc_btree_page pallocChecks at hk
    split at hk
    next hc => simp [claimC7FailCond, hc]
    next =>
      split at hk
      next hb0 => exact absurd (by simpa using hb0) hb
      next =>
        split at hk
        next hc => simp [claimC7FailCond, hc]
        next =>
          split at hk
          next hc => simp [claimC7FailCond, hc]
          next =>
            split at hk
            next hc => simp [claimC7FailCond, hc]
            next =>
              split at hk
              next hc => simp [claimC7FailCond, hc]
              next =>
                split at hk
                next hc => simp [claimC7FailCond, hc]
                next =>
                  split at hk
                  next hc => simp [claimC7FailCond, hc]
                  next =>
                    split at hk
                    next hc => simp [claimC7FailCond, hc]
                    next => exact absurd hk (by simp)
  · intro hcl
    by_contra hne
    have hok : ∃ p, palloc_btree_page disk b = .ok p := by
      cases hres : palloc_btree_page disk b with
      | error e =>
        obtain ⟨k, hk⟩ := palloc_err hres
        subst hk
        exact absurd ⟨k, hres⟩ hne
      | ok p => exact ⟨p, rfl⟩
    obtain ⟨p, hp⟩ := hok
    unfold palloc_btree_page pallocChecks at hp
    split at hp
    next => exact absurd hp (by simp)
    next hc1 =>
      split at hp
      next hb0 => exact absurd (by simpa using hb0) hb
      next =>
        split at hp
        next => exact absurd hp (by simp)
        next hc2 =>
          split at hp
          next => exact absurd hp (by simp)
          next hc3 =>
            split at hp
            next => exact absurd hp (by simp)
            next hc4 =>
              split at hp
              next => exact absurd hp (by simp)
              next hc5 =>
                split at hp
                next => exact absurd hp (by simp)
                next hc6 =>
                  split at hp
                  next => exact absurd hp (by simp)
                  next hc7 =>
                    split at hp
                    next => exact absurd hp (by simp)
                    next hc8 =>
                      simp only [claimC7FailCond, Bool.or_eq_true] at hcl
                      rcases hcl with ((((((hx | hx) | hx) | hx) | hx) | hx) | hx) | hx
                      · exact hc1 hx
                      · exact hc2 hx
                      · exact hc3 hx
                      · exact hc4 (by simpa using hx)
                      · exact hc5 hx
                      · exact hc6 hx
                      · exact hc7 hx
                      · exact hc8 hx

/-- Witness for the amended C7 at a leaf page with a corrupt level field. -/
theorem page_fetch_sanity_witness :
    ∃ k, palloc_btree_page (fun _ => pgBadLevel) 3 = .error (.fetchErr 3 k) :=
  (page_fetch_sanity_amended (fun _ => pgBadLevel) 3 (by decide)).mpr (by decide)

/-- C8: When the level walk fetches an ignorable page, a deleted page in
readonly mode is reported as corruption, a rightmost ignorable page is
reported as corruption, and otherwise the walker continues at the page's
sibling-next without validating the page (the continue outcome holds for
arbitrary page contents). -/
theorem level_walk_ignorable_pages (fuel : Nat) (base : BtreeCheckState)
    (level : BtreeLevel) (w : WalkState) (page : PageModel)
    (hp : palloc_btree_page base.disk w.current = .ok page)
    (hig : P_IGNORE page = true) :
    (base.readonly = true → page.isDeleted = true →
      levelIteration fuel base level w = .error (.deletedPageReachable w.current)) ∧
    (¬(base.readonly = true ∧ page.isDeleted = true) → P_RIGHTMOST page = true →
      levelIteration fuel base level w = .error (.fellOffEnd w.current)) ∧
    (¬(base.readonly = true ∧ page.isDeleted = true) → P_RIGHTMOST page = false →
      w.current ≠ w.leftcurrent → w.current ≠ page.btpo_prev →
      levelIteration fuel base level w = .ok (.cont
        { w with leftcurrent := w.current, current := page.btpo_next,
                 rightsplit := page.isIncompleteSplit })) := by
  refine ⟨?_, ?_, ?_⟩
  · intro hro hdel
    unfold levelIteration
    rw [hp]
    simp [hig, hro, hdel]
  · intro hnot hrm
    have hcond : (base.readonly && page.isDeleted) = false := by
      cases hro : base.readonly <;> cases hdel : page.isDeleted <;> simp_all
    unfold levelIteration
    rw [hp]
    simp [hig, hcond, hrm]
  · intro hnot hrm h1 h2
    have hcond : (base.readonly && page.isDeleted) = false := by
      cases hro : base.readonly <;> cases hdel : page.isDeleted <;> simp_all
    have hnn : (page.btpo_next == P_NONE) = false := by
      unfold P_RIGHTMOST at hrm
      exact hrm
    unfold levelIteration walkNextPage
    rw [hp]
    simp [hig, hcond, hrm, hnn, h1, h2, P_RIGHTMOST]

/-- Witness for C8's skip case at a concrete half-dead page. -/
theorem level_walk_ignorable_pages_witness :
    levelIteration 20 exBase8 ⟨0, 99, false⟩ exWalk8 = .ok (.cont
      { exWalk8 with leftcurrent := 5, current := 6,
                     rightsplit := exHalfDead8.isIncompleteSplit }) :=
  (level_walk_ignorable_pages 20 exBase8 ⟨0, 99, false⟩ exWalk8 exHalfDead8
    (by decide) (by decide)).2.2 (by decide) (by decide) (by decide) (by decide)

/-- C9 counterexample: an entry satisfying the claim's normalized-form
conditions (no compressed component, no short-formable four-byte header)
whose normalization nevertheless does not return it unchanged, because an
uncompressed datum above the compression target with compressible storage
forces reforming. -/
theorem normalize_idempotent_cex :
    claimC9Normalized relVar itupBig = true ∧
      bt_normalize_tuple relVar itupBig ≠ .ok itupBig :=
  ⟨by decide, by decide⟩

/-- C9 (amended): normalizing an entry that is fully normalized (additionally
no external component, and no uncompressed component above the compression
target with compressible storage) returns the entry unchanged. -/
theorem normalize_idempotent_amended (rel : RelModel) (itup : IndexTuple)
    (h : fullyNormalized rel itup = true) :
    bt_normalize_tuple rel itup = .ok itup := by
  unfold bt_normalize_tuple
  split
  · rfl
  · unfold fullyNormalized at h
    rw [normalizeAtts_normal h]
    rfl

/-- Witness for the amended C9 at a short-form varlena entry. -/
theorem normalize_idempotent_witness :
    fullyNormalized relVar itupShortNorm = true ∧
      bt_normalize_tuple relVar itupShortNorm = .ok itupShortNorm :=
  ⟨by decide, normalize_idempotent_amended relVar itupShortNorm (by decide)⟩

/-- C10: The main filter returned by a successful page check is exactly the
incoming filter extended by the normalized forms of the live leaf entries;
a dead entry contributes nothing to it, while the size, order and high-key
checks still apply to dead entries, as the three concrete error runs show. -/
theorem dead_entries_not_fingerprinted :
    (∀ fuel (s : BtreeCheckState) res, bt_target_page_check fuel s = .ok res →
      res.1 = s.filter ++
        fingerprintAddsAll s (offsetRange (P_FIRSTDATAKEY s.target) (maxOff s.target)) ∧
      ∀ o, (itemIdAt s.target o).lp_flags = LPFlag.dead →
        fingerprintAddsSpec s o = []) ∧
    bt_target_page_check 20 exState6 = .ok ([mkEntry 5 (1, 1)], []) ∧
    (itemIdAt exState6.target 2).lp_flags = LPFlag.dead ∧
    bt_target_page_check 20 exDeadHik = .error (.highKeyInvariant 4 2) ∧
    bt_target_page_check 20 exDeadSize = .error (.sizeExceeded 4 1) ∧
    bt_target_page_check 20 exDeadOrder = .error (.itemOrderInvariant 4 1 2) := by
  refine ⟨?_, by decide, by decide, by decide, by decide, by decide⟩
  intro fuel s res hok
  constructor
  · obtain ⟨stopped, hci⟩ := bt_target_ok_checkItems hok
    exact checkItems_filter (maxOff s.target + 1) (by omega) hci
  · intro o hdead
    unfold fingerprintAddsSpec
    rw [if_neg (by simp [hdead])]

/-- Witness for C10's filter characterization at the concrete page with one
live and one dead entry. -/
theorem dead_entries_not_fingerprinted_witness :
    ([mkEntry 5 (1, 1)], ([] : List Nat)).1 = exState6.filter ++
      fingerprintAddsAll exState6
        (offsetRange (P_FIRSTDATAKEY exState6.target) (maxOff exState6.target)) ∧
    ∀ o, (itemIdAt exState6.target o).lp_flags = LPFlag.dead →
      fingerprintAddsSpec exState6 o = [] :=
  dead_entries_not_fingerprinted.1 20 exState6 ([mkEntry 5 (1, 1)], []) (by decide)

end VerifyNbtree
